import Mathlib

/-!
Verification of the live clinical-alert engine
(`backend/src/services/liveAlertService.ts`).

The engine is shallowly embedded: the service's in-memory maps become
association lists, wall-clock reads (`Date.now()`) become an explicit
`now : Nat` parameter, UUID generation becomes a fresh-counter field, and
the external user store (caregiver assignments, user names) becomes an
explicit `Env` of functions.  Every definition mirrors the corresponding
TypeScript function; iteration over JavaScript `Map`s is modelled by folds
over insertion-ordered association lists.
-/

namespace LiveAlertEngine

/-! ## Association-list primitives (JavaScript `Map` semantics) -/

/-- First-match lookup, like `Map.get`. -/
def alookup {α β : Type} [DecidableEq α] (k : α) : List (α × β) → Option β
  | [] => none
  | (k', v) :: rest => if k' = k then some v else alookup k rest

/-- `Map.set`: replace in place when the key is present, append otherwise. -/
def aset {α β : Type} [DecidableEq α] (k : α) (v : β) :
    List (α × β) → List (α × β)
  | [] => [(k, v)]
  | (k', v') :: rest =>
    if k' = k then (k, v) :: rest else (k', v') :: aset k v rest

/-- `Map.delete`. -/
def aerase {α β : Type} [DecidableEq α] (k : α) (m : List (α × β)) :
    List (α × β) :=
  m.filter (fun p => p.1 ≠ k)

/-! ## Domain types (`models/types.ts`) -/

inductive Role : Type
  | Patient
  | Caregiver
deriving DecidableEq, Repr

structure AuthTokenPayload : Type where
  userId : String
  role : Role
  email : String
deriving DecidableEq, Repr

inductive LiveAlertState : Type
  | FIRED
  | AWAITING_ACK
  | ESCALATED
  | BEING_REVIEWED
  | RESOLVED
deriving DecidableEq, Repr

inductive CgAction : Type
  | acknowledge
  | call_patient
  | alert_staff
  | dismiss
deriving DecidableEq, Repr

/-- Audit `action` field is the TypeScript string union. -/
def CgAction.toName : CgAction → String
  | .acknowledge => "acknowledge"
  | .call_patient => "call_patient"
  | .alert_staff => "alert_staff"
  | .dismiss => "dismiss"

def Role.toName : Role → String
  | .Patient => "Patient"
  | .Caregiver => "Caregiver"

structure StreamingVitals : Type where
  patientId : String
  timestamp : Nat
  heartRate : Int
  stepCount : Int
  bloodOxygen : Int
  sleepScore : Int
deriving DecidableEq, Repr

structure LiveAlert : Type where
  id : Nat
  patientId : String
  patientName : String
  tier : Nat
  severity : String
  state : LiveAlertState
  riskPoints : Nat
  urgencyLevel : Nat
  title : String
  message : String
  flaggedVitals : List String
  topContributors : List String
  firedAt : Nat
  updatedAt : Nat
  acknowledgedAt : Option Nat
  resolvedAt : Option Nat
  stateDeadlineAt : Option Nat
deriving DecidableEq, Repr

structure AlertAuditEntry : Type where
  id : Nat
  alertId : Nat
  patientId : String
  actorUserId : String
  actorRole : String
  action : String
  timestamp : Nat
  responseTimeMs : Nat
  note : Option String
deriving DecidableEq, Repr

/-! ## Timing constants (`liveAlertService.ts` lines 52-57) -/

def FIRED_TO_AWAITING_MS : Nat := 30000
def AWAITING_TO_ESCALATED_MS : Nat := 60000
def ESCALATED_TO_AWAITING_MS : Nat := 30000
def REVIEW_TO_RESOLVED_MS : Nat := 15000
def MINIMUM_SAMPLES_BEFORE_ALERTING : Nat := 12
def SUBSCRIBER_GRACE_PERIOD_MS : Nat := 45000

/-! ## Signal scorer (pure part of the service) -/

structure ScoredSignal : Type where
  label : String
  points : Nat
  severity : String
deriving DecidableEq, Repr

structure ScoreResult : Type where
  points : Nat
  tier : Nat
  severity : Option String
  flaggedVitals : List String
  topContributors : List String
  title : String
  message : String
deriving DecidableEq, Repr

/-- `scoreToTier` (lines 63-74). -/
def scoreToTier (points : Nat) : Nat :=
  if points ≥ 5 then 3
  else if points ≥ 3 then 2
  else if points ≥ 1 then 1
  else 0

/-- `tierToSeverity` (lines 76-84). -/
def tierToSeverity (tier : Nat) : String :=
  if tier = 3 then "critical"
  else if tier = 2 then "warning"
  else "info"

/-- The signal list built by `scoreSignals` (lines 87-120).  The sustained
heart-rate check reads the last three samples of a two-minute lookback from
the external store; that slice is passed in as `recent3`. -/
def signalsFor (threshold : Int) (recent3 : List StreamingVitals)
    (v : StreamingVitals) : List ScoredSignal :=
  (if v.bloodOxygen < 90 then
      [⟨"Blood oxygen desaturation", 6, "critical"⟩]
    else if v.bloodOxygen < 94 then
      [⟨"Blood oxygen below normal", 3, "warning"⟩]
    else []) ++
  (if v.heartRate ≥ 130 then
      [⟨"Heart rate critically elevated", 4, "critical"⟩]
    else if v.heartRate ≥ 110 then
      [⟨"Heart rate elevated", 2, "warning"⟩]
    else []) ++
  (if v.stepCount ≤ 800 then
      [⟨"Very low activity", 2, "critical"⟩]
    else if v.stepCount ≤ 1400 then
      [⟨"Reduced activity", 1, "warning"⟩]
    else []) ++
  (if v.sleepScore < 45 then
      [⟨"Poor recovery sleep", 2, "critical"⟩]
    else if v.sleepScore < 60 then
      [⟨"Sleep trend degraded", 1, "warning"⟩]
    else []) ++
  (if recent3.length = 3 ∧ recent3.all (fun item => item.heartRate ≥ threshold) then
      [⟨"Sustained heart rate spike", 3, "critical"⟩]
    else [])

/-- Stable descending insertion by points: the unique stable order produced
by `sort((l, r) => r.points - l.points)`. -/
def insertDesc (x : ScoredSignal) : List ScoredSignal → List ScoredSignal
  | [] => [x]
  | y :: ys => if y.points > x.points then y :: insertDesc x ys else x :: y :: ys

def sortByPointsDesc : List ScoredSignal → List ScoredSignal
  | [] => []
  | x :: xs => insertDesc x (sortByPointsDesc xs)

/-- `Array.from(new Set(xs))`: keep the first occurrence of each element. -/
def dedupFirstAux (seen : List String) : List String → List String
  | [] => []
  | x :: xs =>
    if x ∈ seen then dedupFirstAux seen xs
    else x :: dedupFirstAux (x :: seen) xs

def dedupFirst (xs : List String) : List String := dedupFirstAux [] xs

/-- JavaScript `Array.prototype.join("|")`. -/
def joinPipe : List String → String
  | [] => ""
  | [x] => x
  | x :: y :: xs => x ++ "|" ++ joinPipe (y :: xs)

def sumPoints (signals : List ScoredSignal) : Nat :=
  signals.foldl (fun acc s => acc + s.points) 0

/-- `scoreSignals` (lines 86-169). -/
def scoreSignals (threshold : Int) (recent3 : List StreamingVitals)
    (v : StreamingVitals) : ScoreResult :=
  let signals := signalsFor threshold recent3 v
  let points := sumPoints signals
  let tier := scoreToTier points
  if tier = 0 then
    { points := points, tier := tier, severity := none, flaggedVitals := [],
      topContributors := [], title := "", message := "" }
  else
    let topContributors :=
      ((sortByPointsDesc signals).take 3).map (fun item => item.label)
    let flaggedVitals := dedupFirst topContributors
    let severity := tierToSeverity tier
    let multiSystem := tier = 3 ∧ signals.length ≥ 3
    let title :=
      if tier = 3 then
        if multiSystem then "Multi-System Critical Alert"
        else "Critical Physiologic Alert"
      else if tier = 2 then "Physiologic Warning"
      else "Vital Drift Notice"
    let message :=
      if tier = 3 then
        "Immediate review recommended. One or more vitals crossed critical thresholds."
      else if tier = 2 then
        "Vitals indicate moderate risk. Confirm patient status."
      else
        "Minor vital drift detected. Continue monitoring."
    { points := points, tier := tier, severity := some severity,
      flaggedVitals := flaggedVitals, topContributors := topContributors,
      title := title, message := message }

/-! ## Engine state

The service's private fields.  `nextUuid` models `uuidv4()` as a fresh
counter; `deliveries` logs every chunk written to a subscriber (the
observable output of `sendToSubscriber`). -/

inductive StreamEventType : Type
  | init
  | alert_upsert
  | alert_resolved
  | audit
deriving DecidableEq, Repr

structure Subscriber : Type where
  id : Nat
  auth : AuthTokenPayload
deriving DecidableEq, Repr

/-- One event written to one subscriber; `patientId` is the affected subject
(`none` for the connect-time `init` snapshot, which has no single subject). -/
structure Delivery : Type where
  subscriberId : Nat
  auth : AuthTokenPayload
  eventType : StreamEventType
  patientId : Option String
deriving DecidableEq, Repr

structure EngineState : Type where
  alertsById : List LiveAlert
  activeAlertIdByPatient : List (String × Nat)
  subscribers : List Subscriber
  cooldowns : List ((String × Nat) × Nat)
  sampleCountByPatient : List (String × Nat)
  gracePeriodByPatient : List (String × Nat)
  auditTrail : List AlertAuditEntry
  deliveries : List Delivery
  nextUuid : Nat
deriving DecidableEq, Repr

def initialState : EngineState :=
  { alertsById := [], activeAlertIdByPatient := [], subscribers := [],
    cooldowns := [], sampleCountByPatient := [], gracePeriodByPatient := [],
    auditTrail := [], deliveries := [], nextUuid := 0 }

/-- External collaborators: the user store's caregiver assignments and user
directory, plus the configured sustained-heart-rate threshold. -/
structure Env : Type where
  caregiverPatients : String → List String
  userName : String → Option String
  sustainedHrThreshold : Int

/-- `Map<string, LiveAlert>` keyed by `alert.id`: first entry with the id. -/
def getAlert : List LiveAlert → Nat → Option LiveAlert
  | [], _ => none
  | a :: rest, i => if a.id = i then some a else getAlert rest i

/-- In-place mutation of the alert object with the given id. -/
def modifyAlert (alerts : List LiveAlert) (i : Nat) (f : LiveAlert → LiveAlert) :
    List LiveAlert :=
  alerts.map (fun a => if a.id = i then f a else a)

/-! ## Engine operations (`LiveAlertService`) -/

/-- `canAccessPatient` (lines 685-690). -/
def canAccessPatient (env : Env) (auth : AuthTokenPayload) (patientId : String) :
    Bool :=
  match auth.role with
  | .Patient => auth.userId = patientId
  | .Caregiver => (env.caregiverPatients auth.userId).contains patientId

/-- The subscribers a `broadcast` call writes to (lines 711-718). -/
def broadcastTargets (env : Env) (subs : List Subscriber) (patientId : String) :
    List Subscriber :=
  subs.filter (fun sub => canAccessPatient env sub.auth patientId)

/-- `broadcast` (lines 711-718): write the event to every subscriber whose
scope includes the subject. -/
def broadcast (env : Env) (eventType : StreamEventType) (patientId : String)
    (s : EngineState) : EngineState :=
  let sent : List Delivery :=
    (broadcastTargets env s.subscribers patientId).map
      (fun sub => ⟨sub.id, sub.auth, eventType, some patientId⟩)
  { s with deliveries := s.deliveries ++ sent }

/-- The audit entry `recordAudit` builds; `Math.max(0, now - firedAt)` is
truncated `Nat` subtraction. -/
def auditEntryFor (now : Nat) (alert : LiveAlert)
    (actorUserId actorRole action : String) (note : Option String)
    (uuid : Nat) : AlertAuditEntry :=
  { id := uuid, alertId := alert.id, patientId := alert.patientId,
    actorUserId := actorUserId, actorRole := actorRole, action := action,
    timestamp := now, responseTimeMs := now - alert.firedAt, note := note }

/-- `recordAudit` (lines 578-616); the external `store.addAuditLog` call is an
outside collaborator and is not part of the engine state. -/
def recordAudit (env : Env) (now : Nat) (alert : LiveAlert)
    (actorUserId actorRole action : String) (note : Option String)
    (s : EngineState) : EngineState :=
  let entry := auditEntryFor now alert actorUserId actorRole action note
    s.nextUuid
  let s := { s with auditTrail := (entry :: s.auditTrail).take 500,
                    nextUuid := s.nextUuid + 1 }
  broadcast env .audit alert.patientId s

/-- The field updates of `transitionState` (lines 537-552). -/
def applyTransition (now : Nat) (nextState : LiveAlertState) (a : LiveAlert) :
    LiveAlert :=
  let a := { a with state := nextState, updatedAt := now }
  match nextState with
  | .FIRED => { a with stateDeadlineAt := some (now + FIRED_TO_AWAITING_MS) }
  | .AWAITING_ACK =>
      { a with stateDeadlineAt := some (now + AWAITING_TO_ESCALATED_MS) }
  | .ESCALATED =>
      { a with stateDeadlineAt := some (now + ESCALATED_TO_AWAITING_MS) }
  | .BEING_REVIEWED =>
      { a with stateDeadlineAt := some (now + REVIEW_TO_RESOLVED_MS) }
  | .RESOLVED => { a with stateDeadlineAt := none, resolvedAt := some now }

/-- `transitionState` (lines 537-555): mutate the alert, then broadcast
`alert_upsert`. -/
def transitionState (env : Env) (now : Nat) (nextState : LiveAlertState)
    (a : LiveAlert) (s : EngineState) : LiveAlert × EngineState :=
  let a' := applyTransition now nextState a
  let s := { s with alertsById := modifyAlert s.alertsById a.id (fun _ => a') }
  (a', broadcast env .alert_upsert a'.patientId s)

/-- Deleting the active-registry entry when it points at the resolved alert
(lines 563-566). -/
def dropActiveEntry (p : String) (i : Nat) (m : List (String × Nat)) :
    List (String × Nat) :=
  if alookup p m = some i then aerase p m else m

/-- `resolveAlertInternal` (lines 557-576). -/
def resolveAlertInternal (env : Env) (now : Nat) (a : LiveAlert)
    (reason : String) (s : EngineState) : LiveAlert × EngineState :=
  let a' := { a with state := .RESOLVED, updatedAt := now,
                     resolvedAt := some now, stateDeadlineAt := none }
  let s := { s with alertsById := modifyAlert s.alertsById a.id (fun _ => a'),
                    activeAlertIdByPatient :=
                      (dropActiveEntry a.patientId a.id
                        s.activeAlertIdByPatient) }
  let s := recordAudit env now a' "system" "System" "acknowledge" (some reason) s
  (a', broadcast env .alert_resolved a'.patientId s)

/-- `refreshAlert` (lines 492-509). -/
def refreshAlert (env : Env) (a : LiveAlert) (score : ScoreResult)
    (s : EngineState) : EngineState :=
  let hasDelta :=
    a.riskPoints ≠ score.points ∨ a.title ≠ score.title ∨
    a.message ≠ score.message ∨
    joinPipe a.flaggedVitals ≠ joinPipe score.flaggedVitals
  if hasDelta then
    let a' := { a with riskPoints := score.points, title := score.title,
                       message := score.message,
                       flaggedVitals := score.flaggedVitals,
                       topContributors := score.topContributors }
    broadcast env .alert_upsert a'.patientId
      { s with alertsById := modifyAlert s.alertsById a.id (fun _ => a') }
  else s

/-- `cooldownMs` per tier (line 681). -/
def cooldownMs (tier : Nat) : Nat :=
  if tier = 3 then 60000 else if tier = 2 then 180000 else 90000

/-- `setCooldown` (lines 679-683). -/
def setCooldown (now : Nat) (patientId : String) (tier : Nat)
    (s : EngineState) : EngineState :=
  { s with cooldowns := aset (patientId, tier) (now + cooldownMs tier) s.cooldowns }

/-- `isOnCooldown` (lines 673-677). -/
def isOnCooldown (now : Nat) (patientId : String) (tier : Nat)
    (s : EngineState) : Bool :=
  (alookup (patientId, tier) s.cooldowns).getD 0 > now

/-- Alert creation inside `processVitals` (lines 288-316), reached only once
no non-terminal active alert remains for the subject.  The legacy
notification fan-out writes to the external store and is not engine state. -/
def openAlert (env : Env) (now : Nat) (v : StreamingVitals)
    (score : ScoreResult) (sev : String) (s : EngineState) : EngineState :=
  if isOnCooldown now v.patientId score.tier s then s
  else
    let patientName := (env.userName v.patientId).getD v.patientId
    let created : LiveAlert :=
      { id := s.nextUuid, patientId := v.patientId, patientName := patientName,
        tier := score.tier, severity := sev, state := .FIRED,
        riskPoints := score.points, urgencyLevel := 1, title := score.title,
        message := score.message, flaggedVitals := score.flaggedVitals,
        topContributors := score.topContributors, firedAt := now,
        updatedAt := now, acknowledgedAt := none, resolvedAt := none,
        stateDeadlineAt := some (now + FIRED_TO_AWAITING_MS) }
    let s := { s with nextUuid := s.nextUuid + 1,
                      alertsById := s.alertsById ++ [created],
                      activeAlertIdByPatient :=
                        aset v.patientId created.id s.activeAlertIdByPatient }
    let s := setCooldown now created.patientId created.tier s
    broadcast env .alert_upsert created.patientId s

/-- `processVitals` (lines 255-317). -/
def processVitals (env : Env) (now : Nat) (recent3 : List StreamingVitals)
    (v : StreamingVitals) (s : EngineState) : EngineState :=
  let observedCount := (alookup v.patientId s.sampleCountByPatient).getD 0 + 1
  let s :=
    { s with sampleCountByPatient :=
        (aset v.patientId observedCount s.sampleCountByPatient) }
  if observedCount < MINIMUM_SAMPLES_BEFORE_ALERTING then s
  else if now < (alookup v.patientId s.gracePeriodByPatient).getD 0 then s
  else
    let score := scoreSignals env.sustainedHrThreshold recent3 v
    match score.severity with
    | none => s
    | some sev =>
      if score.tier = 0 then s
      else
        match (alookup v.patientId s.activeAlertIdByPatient).bind
            (getAlert s.alertsById) with
        | some existingAlert =>
          if existingAlert.state ≠ .RESOLVED then
            if score.tier > existingAlert.tier then
              let s := (resolveAlertInternal env now existingAlert
                "Superseded by higher-tier alert" s).2
              openAlert env now v score sev s
            else if score.tier = existingAlert.tier then
              refreshAlert env existingAlert score s
            else s
          else openAlert env now v score sev s
        | none => openAlert env now v score sev s

/-- One iteration of the ticker loop in `advanceStateMachine`
(lines 513-534). -/
def tickEntry (env : Env) (now : Nat) (s : EngineState) (entry : String × Nat) :
    EngineState :=
  match getAlert s.alertsById entry.2 with
  | none => s
  | some alert =>
    if alert.state = .RESOLVED then s
    else
      match alert.stateDeadlineAt with
      | none => s
      | some deadline =>
        if now < deadline then s
        else
          match alert.state with
          | .FIRED => (transitionState env now .AWAITING_ACK alert s).2
          | .AWAITING_ACK =>
            let alert := { alert with
              urgencyLevel := min (alert.urgencyLevel + 1) 5 }
            let s := { s with alertsById :=
                (modifyAlert s.alertsById alert.id (fun _ => alert)) }
            (transitionState env now .ESCALATED alert s).2
          | .ESCALATED => (transitionState env now .AWAITING_ACK alert s).2
          | .BEING_REVIEWED =>
            (resolveAlertInternal env now alert "Resolved after review" s).2
          | .RESOLVED => s

/-- `advanceStateMachine` (lines 511-535): one ticker pass over the active
registry as it stands when the tick starts. -/
def advanceStateMachine (env : Env) (now : Nat) (s : EngineState) :
    EngineState :=
  s.activeAlertIdByPatient.foldl (tickEntry env now) s

inductive ActionError : Type
  | not_found
  | forbidden
  | already_resolved
deriving DecidableEq, Repr

inductive AlertActionResult : Type
  | ok (alert : LiveAlert)
  | err (error : ActionError) (message : String)
deriving DecidableEq, Repr

/-- `acknowledgeAlert` (lines 319-357). -/
def acknowledgeAlert (env : Env) (now : Nat) (alertId : Nat)
    (actor : AuthTokenPayload) (reason : Option String) (s : EngineState) :
    AlertActionResult × EngineState :=
  match getAlert s.alertsById alertId with
  | none => (.err .not_found "Alert not found.", s)
  | some alert =>
    if ¬ canAccessPatient env actor alert.patientId then
      (.err .forbidden "Access denied.", s)
    else if alert.state = .RESOLVED then
      (.err .already_resolved "Alert already resolved.", s)
    else
      let alert := { alert with acknowledgedAt := some now }
      let s := { s with alertsById :=
          (modifyAlert s.alertsById alert.id (fun _ => alert)) }
      let ts := transitionState env now .BEING_REVIEWED alert s
      let s := recordAudit env now ts.1 actor.userId actor.role.toName
        "acknowledge" reason ts.2
      (.ok ts.1, s)

/-- `caregiverAction` (lines 359-421). -/
def caregiverAction (env : Env) (now : Nat) (alertId : Nat)
    (caregiverId : String) (action : CgAction) (note : Option String)
    (s : EngineState) : AlertActionResult × EngineState :=
  match getAlert s.alertsById alertId with
  | none => (.err .not_found "Alert not found.", s)
  | some alert =>
    let caregiverAuth : AuthTokenPayload :=
      { userId := caregiverId, role := .Caregiver, email := "" }
    if ¬ canAccessPatient env caregiverAuth alert.patientId then
      (.err .forbidden "Caregiver cannot act on this patient.", s)
    else if alert.state = .RESOLVED then
      (.err .already_resolved "Alert already resolved.", s)
    else if action = .dismiss then
      let s := recordAudit env now alert caregiverId "Caregiver"
        action.toName note s
      let rs := resolveAlertInternal env now alert
        (note.getD "Dismissed by caregiver") s
      (.ok rs.1, rs.2)
    else
      let ts := transitionState env now .BEING_REVIEWED alert s
      let s := recordAudit env now ts.1 caregiverId "Caregiver"
        action.toName note ts.2
      (.ok ts.1, s)

/-- The skip test `params.tier && alert.tier !== params.tier` (line 436),
including JavaScript number truthiness. -/
def tierSkip (tier? : Option Nat) (alertTier : Nat) : Bool :=
  match tier? with
  | none => false
  | some t => t ≠ 0 ∧ alertTier ≠ t

/-- One iteration of the `bulkAcknowledge` loop (lines 432-453). -/
def bulkStep (env : Env) (now : Nat) (caregiverId : String)
    (tier? : Option Nat) (acc : (Nat × List Nat) × EngineState) (i : Nat) :
    (Nat × List Nat) × EngineState :=
  let caregiverAuth : AuthTokenPayload :=
    { userId := caregiverId, role := .Caregiver, email := "" }
  match getAlert acc.2.alertsById i with
  | none => acc
  | some alert =>
    if alert.state = .RESOLVED then acc
    else if tierSkip tier? alert.tier then acc
    else if ¬ canAccessPatient env caregiverAuth alert.patientId then acc
    else
      let r := caregiverAction env now i caregiverId .acknowledge
        (some "Bulk acknowledge") acc.2
      match r.1 with
      | .ok _ => ((acc.1.1 + 1, acc.1.2 ++ [i]), r.2)
      | .err _ _ => (acc.1, r.2)

/-- `bulkAcknowledge` (lines 423-459): iterate the alert registry, applying
the caregiver `acknowledge` action to each matching alert. -/
def bulkAcknowledge (env : Env) (now : Nat) (caregiverId : String)
    (tier? : Option Nat) (s : EngineState) :
    (Nat × List Nat) × EngineState :=
  (s.alertsById.map LiveAlert.id).foldl (bulkStep env now caregiverId tier?)
    ((0, []), s)

/-- `addSubscriber` (lines 226-249); the `init` snapshot write is logged with
no single affected subject. -/
def addSubscriber (env : Env) (now : Nat) (auth : AuthTokenPayload)
    (s : EngineState) : Nat × EngineState :=
  let id := s.nextUuid
  let s := { s with nextUuid := s.nextUuid + 1,
                    subscribers := s.subscribers ++ [(⟨id, auth⟩ : Subscriber)] }
  let s :=
    match auth.role with
    | .Patient =>
      { s with gracePeriodByPatient :=
          (aset auth.userId (now + SUBSCRIBER_GRACE_PERIOD_MS)
            s.gracePeriodByPatient) }
    | .Caregiver =>
      (env.caregiverPatients auth.userId).foldl
        (fun s patientId =>
          { s with gracePeriodByPatient :=
              (aset patientId
                (max ((alookup patientId s.gracePeriodByPatient).getD 0)
                  (now + 20000))
                s.gracePeriodByPatient) })
        s
  (id, { s with deliveries :=
      s.deliveries ++ [(⟨id, auth, .init, none⟩ : Delivery)] })

/-- `removeSubscriber` (lines 251-253). -/
def removeSubscriber (subscriberId : Nat) (s : EngineState) : EngineState :=
  { s with subscribers := s.subscribers.filter (fun sub => sub.id ≠ subscriberId) }

/-! ## Transition system over the engine's public entry points -/

inductive Step (env : Env) : EngineState → EngineState → Prop
  | vitals (now : Nat) (recent3 : List StreamingVitals) (v : StreamingVitals)
      (s : EngineState) : Step env s (processVitals env now recent3 v s)
  | tick (now : Nat) (s : EngineState) :
      Step env s (advanceStateMachine env now s)
  | ack (now : Nat) (alertId : Nat) (actor : AuthTokenPayload)
      (reason : Option String) (s : EngineState) :
      Step env s (acknowledgeAlert env now alertId actor reason s).2
  | cg (now : Nat) (alertId : Nat) (caregiverId : String) (action : CgAction)
      (note : Option String) (s : EngineState) :
      Step env s (caregiverAction env now alertId caregiverId action note s).2
  | bulk (now : Nat) (caregiverId : String) (tier? : Option Nat)
      (s : EngineState) :
      Step env s (bulkAcknowledge env now caregiverId tier? s).2
  | subscribe (now : Nat) (auth : AuthTokenPayload) (s : EngineState) :
      Step env s (addSubscriber env now auth s).2
  | unsubscribe (subscriberId : Nat) (s : EngineState) :
      Step env s (removeSubscriber subscriberId s)

inductive Reachable (env : Env) : EngineState → Prop
  | init : Reachable env initialState
  | step {s s' : EngineState} : Reachable env s → Step env s s' →
      Reachable env s'

/-! ## Invariants and specification predicates -/

/-- The registry invariants the service maintains: alert ids are distinct
and below the uuid counter, the active map has one entry per subject, every
entry points to a non-terminal alert of that subject, and every non-terminal
alert is registered under its subject. -/
def WellFormed (s : EngineState) : Prop :=
  (s.alertsById.map LiveAlert.id).Nodup ∧
  (∀ a ∈ s.alertsById, a.id < s.nextUuid) ∧
  (s.activeAlertIdByPatient.map Prod.fst).Nodup ∧
  (∀ p i, (p, i) ∈ s.activeAlertIdByPatient →
    ∃ a, a ∈ s.alertsById ∧ a.id = i ∧ a.patientId = p ∧
      a.state ≠ LiveAlertState.RESOLVED) ∧
  (∀ a ∈ s.alertsById, a.state ≠ LiveAlertState.RESOLVED →
    alookup a.patientId s.activeAlertIdByPatient = some a.id)

/-- At most one non-terminal alert exists per subject. -/
def atMostOneActive (s : EngineState) : Prop :=
  ∀ a b : LiveAlert, a ∈ s.alertsById → b ∈ s.alertsById →
    a.patientId = b.patientId → a.state ≠ LiveAlertState.RESOLVED →
    b.state ≠ LiveAlertState.RESOLVED → a = b

/-- Whenever a subject has a non-terminal alert, the active-alert-by-subject
map points to it. -/
def activeRegistryCoherent (s : EngineState) : Prop :=
  ∀ a ∈ s.alertsById, a.state ≠ LiveAlertState.RESOLVED →
    alookup a.patientId s.activeAlertIdByPatient = some a.id

/-- When `processVitals` creates a brand-new alert for a subject, every
prior alert of that subject is RESOLVED afterwards (the previous episode
either was already terminal or was superseded within the same call). -/
def freshCreationResolvesPrior (env : Env) (s : EngineState) : Prop :=
  ∀ (now : Nat) (r3 : List StreamingVitals) (v : StreamingVitals)
    (c : LiveAlert), c ∈ (processVitals env now r3 v s).alertsById →
    (∀ b ∈ s.alertsById, b.id ≠ c.id) →
    ∀ a ∈ s.alertsById, a.patientId = c.patientId →
      ∃ a', a' ∈ (processVitals env now r3 v s).alertsById ∧ a'.id = a.id ∧
        a'.state = LiveAlertState.RESOLVED

/-- A subject is inside a principal's visibility scope: a patient sees only
itself, a caregiver sees exactly its assigned patients. -/
def inScope (env : Env) (auth : AuthTokenPayload) (patientId : String) : Prop :=
  (auth.role = Role.Patient ∧ auth.userId = patientId) ∨
  (auth.role = Role.Caregiver ∧ patientId ∈ env.caregiverPatients auth.userId)

instance (env : Env) (auth : AuthTokenPayload) (patientId : String) :
    Decidable (inScope env auth patientId) := by
  unfold inScope
  exact inferInstance

/-- A delivery is properly scoped: whenever it concerns a single subject,
the receiving principal's scope includes that subject. -/
def deliveryOK (env : Env) (d : Delivery) : Prop :=
  ∀ pid, d.patientId = some pid → inScope env d.auth pid

/-- Every logged delivery that concerns a single subject went to a subscriber
whose scope included that subject. -/
def deliveriesScoped (env : Env) (s : EngineState) : Prop :=
  ∀ d ∈ s.deliveries, deliveryOK env d

/-- `s'` extends `s` by at most properly scoped deliveries. -/
def extendsScoped (env : Env) (s s' : EngineState) : Prop :=
  ∀ d ∈ s'.deliveries, d ∈ s.deliveries ∨ deliveryOK env d

/-- The alerts `bulkAcknowledge` is specified to touch: non-terminal, tier
matching the optional filter, subject visible to the caregiver. -/
def bulkMatch (env : Env) (caregiverId : String) (tier? : Option Nat)
    (a : LiveAlert) : Bool :=
  (a.state ≠ LiveAlertState.RESOLVED) && !(tierSkip tier? a.tier) &&
    canAccessPatient env ⟨caregiverId, .Caregiver, ""⟩ a.patientId

/-- A usable signal label: nonempty and free of the `"|"` join separator
(true of all labels the scorer produces). -/
def cleanLabel (x : String) : Prop := x.data ≠ [] ∧ '|' ∉ x.data

instance (x : String) : Decidable (cleanLabel x) := by
  unfold cleanLabel
  infer_instance

/-- The claim's refresh condition: at least one of the mutable fields
(score, title, message, flagged vitals, top contributors) differs between
the active alert and the new score. -/
def refreshDelta (a : LiveAlert) (score : ScoreResult) : Prop :=
  a.riskPoints ≠ score.points ∨ a.title ≠ score.title ∨
  a.message ≠ score.message ∨ a.flaggedVitals ≠ score.flaggedVitals ∨
  a.topContributors ≠ score.topContributors

instance (a : LiveAlert) (score : ScoreResult) :
    Decidable (refreshDelta a score) := by
  unfold refreshDelta
  infer_instance

/-- An alert is due for a ticker transition: it carries a deadline that has
passed (the negation of the `continue` guards on lines 515-522). -/
def tickDue (now : Nat) (a : LiveAlert) : Bool :=
  match a.stateDeadlineAt with
  | none => false
  | some deadline => decide (deadline ≤ now)

/-- The claimed successor state for an overdue alert on a ticker pass:
FIRED→AWAITING_ACK, AWAITING_ACK→ESCALATED, ESCALATED→AWAITING_ACK,
BEING_REVIEWED→RESOLVED, never skipping a state or moving backward except
via the AWAITING_ACK⇄ESCALATED cycle. -/
def nextTickState : LiveAlertState → LiveAlertState
  | .FIRED => .AWAITING_ACK
  | .AWAITING_ACK => .ESCALATED
  | .ESCALATED => .AWAITING_ACK
  | .BEING_REVIEWED => .RESOLVED
  | .RESOLVED => .RESOLVED

/-- The claimed record outcome of one overdue ticker transition: the state
moves as in `nextTickState`, AWAITING_ACK→ESCALATED additionally increments
the urgency level capped at 5, and BEING_REVIEWED→RESOLVED clears the
deadline and stamps `resolvedAt`. -/
def tickAdvanced (now : Nat) (a : LiveAlert) : LiveAlert :=
  match a.state with
  | .FIRED => applyTransition now .AWAITING_ACK a
  | .AWAITING_ACK =>
      applyTransition now .ESCALATED
        { a with urgencyLevel := min (a.urgencyLevel + 1) 5 }
  | .ESCALATED => applyTransition now .AWAITING_ACK a
  | .BEING_REVIEWED =>
      { a with state := .RESOLVED, updatedAt := now,
               resolvedAt := some now, stateDeadlineAt := none }
  | .RESOLVED => a

/-! ## Concrete instances used by witnesses and counterexamples -/

def envW : Env :=
  ⟨fun c => if c = "cg1" then ["p1", "p2"] else [], fun _ => none, 125⟩

def authCg : AuthTokenPayload := ⟨"cg1", .Caregiver, ""⟩

def authP1 : AuthTokenPayload := ⟨"p1", .Patient, ""⟩

/-- A sample with every vital in the normal range. -/
def vClean : StreamingVitals :=
  { patientId := "p1", timestamp := 0, heartRate := 70, stepCount := 5000,
    bloodOxygen := 98, sleepScore := 80 }

/-- A sample whose only firing signal is mild desaturation (3 points,
tier 2). -/
def vTier2 : StreamingVitals :=
  { patientId := "p1", timestamp := 0, heartRate := 70, stepCount := 5000,
    bloodOxygen := 92, sleepScore := 80 }

/-- An alert under review, used to probe acknowledge idempotence. -/
def aBR : LiveAlert :=
  { id := 0, patientId := "p1", patientName := "P One", tier := 2,
    severity := "warning", state := .BEING_REVIEWED, riskPoints := 3,
    urgencyLevel := 1, title := "Physiologic Warning",
    message := "Vitals indicate moderate risk. Confirm patient status.",
    flaggedVitals := ["Blood oxygen below normal"],
    topContributors := ["Blood oxygen below normal"], firedAt := 100,
    updatedAt := 500, acknowledgedAt := some 400, resolvedAt := none,
    stateDeadlineAt := some 1000 }

def sBR : EngineState :=
  { initialState with alertsById := [aBR],
                      activeAlertIdByPatient := [("p1", 0)], nextUuid := 1 }

/-- A caregiver with no assigned patients. -/
def authCg2 : AuthTokenPayload := ⟨"cg2", .Caregiver, ""⟩

/-- The reviewed alert after it has been resolved. -/
def aRes : LiveAlert :=
  { aBR with state := .RESOLVED, stateDeadlineAt := none,
             resolvedAt := some 600 }

def sRes : EngineState :=
  { initialState with alertsById := [aRes], nextUuid := 1 }

/-- A live tier-2 alert whose score (4 points) will differ from the next
tier-2 sample's 3 points. -/
def aC6 : LiveAlert :=
  { id := 0, patientId := "p1", patientName := "P One", tier := 2,
    severity := "warning", state := .FIRED, riskPoints := 4,
    urgencyLevel := 1, title := "Physiologic Warning",
    message := "Vitals indicate moderate risk. Confirm patient status.",
    flaggedVitals := ["Blood oxygen below normal"],
    topContributors := ["Blood oxygen below normal"], firedAt := 100,
    updatedAt := 100, acknowledgedAt := none, resolvedAt := none,
    stateDeadlineAt := some 30100 }

/-- Engine state one sample short of the cold-start minimum, carrying
`aC6` as the active alert for p1. -/
def sC6 : EngineState :=
  { initialState with alertsById := [aC6],
                      activeAlertIdByPatient := [("p1", 0)],
                      sampleCountByPatient := [("p1", 11)], nextUuid := 1 }

/-- A caregiver assigned to three monitored patients. -/
def env8 : Env :=
  ⟨fun c => if c = "cg1" then ["p1", "p2", "p3"] else [], fun _ => none, 125⟩

/-- Three live alerts of tiers 1, 2, 2 on three subjects. -/
def aT1 : LiveAlert :=
  { aBR with id := 0, patientId := "p1", tier := 1, state := .FIRED }

def aT2 : LiveAlert :=
  { aBR with id := 1, patientId := "p2", tier := 2, state := .FIRED }

def aT3 : LiveAlert :=
  { aBR with id := 2, patientId := "p3", tier := 2, state := .AWAITING_ACK }

def s8 : EngineState :=
  { initialState with alertsById := [aT1, aT2, aT3],
                      activeAlertIdByPatient :=
                        [("p1", 0), ("p2", 1), ("p3", 2)],
                      nextUuid := 3 }

/-! ## Lemmas about the map primitives -/

section AssocLemmas

variable {α β : Type} [DecidableEq α]

theorem alookup_eq_none_iff {k : α} {m : List (α × β)} :
    alookup k m = none ↔ ∀ p ∈ m, p.1 ≠ k := by
  induction m with
  | nil => simp [alookup]
  | cons hd tl ih =>
    obtain ⟨k', v⟩ := hd
    by_cases h : k' = k <;> simp [alookup, h, ih]

theorem alookup_mem {k : α} {v : β} {m : List (α × β)}
    (h : alookup k m = some v) : (k, v) ∈ m := by
  induction m with
  | nil => simp [alookup] at h
  | cons hd tl ih =>
    obtain ⟨k', v'⟩ := hd
    by_cases hk : k' = k
    · subst hk
      simp [alookup] at h
      simp [h]
    · simp [alookup, hk] at h
      simp [ih h]

theorem mem_alookup {k : α} {v : β} {m : List (α × β)}
    (hmem : (k, v) ∈ m) (hnd : (m.map Prod.fst).Nodup) :
    alookup k m = some v := by
  induction m with
  | nil => simp at hmem
  | cons hd tl ih =>
    obtain ⟨k', v'⟩ := hd
    simp only [List.map_cons, List.nodup_cons] at hnd
    rcases List.mem_cons.mp hmem with h | h
    · cases h
      simp [alookup]
    · have hk : k' ≠ k := by
        intro he
        subst he
        exact hnd.1 (List.mem_map.mpr ⟨(k', v), h, rfl⟩)
      simp [alookup, hk, ih h hnd.2]

theorem keys_aset_subset {k : α} {v : β} {m : List (α × β)} {x : α}
    (hx : x ∈ (aset k v m).map Prod.fst) :
    x = k ∨ x ∈ m.map Prod.fst := by
  induction m with
  | nil => simpa [aset] using hx
  | cons hd tl ih =>
    obtain ⟨k₀, v₀⟩ := hd
    by_cases hk : k₀ = k
    · subst hk
      simp only [aset, if_pos rfl, List.map_cons] at hx ⊢
      rcases List.mem_cons.mp hx with rfl | hx
      · exact Or.inl rfl
      · exact Or.inr (List.mem_cons_of_mem _ hx)
    · simp only [aset, hk, if_neg, if_false, List.map_cons] at hx ⊢
      rcases List.mem_cons.mp hx with rfl | hx
      · exact Or.inr (List.mem_cons_self _ _)
      · rcases ih hx with h | h
        · exact Or.inl h
        · exact Or.inr (List.mem_cons_of_mem _ h)

theorem mem_aset_iff {k : α} {v : β} {m : List (α × β)} {p : α × β}
    (hnd : (m.map Prod.fst).Nodup) :
    p ∈ aset k v m ↔ p = (k, v) ∨ (p ∈ m ∧ p.1 ≠ k) := by
  induction m with
  | nil =>
    simp [aset]
  | cons hd tl ih =>
    obtain ⟨k₀, v₀⟩ := hd
    simp only [List.map_cons, List.nodup_cons] at hnd
    by_cases hk : k₀ = k
    · subst hk
      rw [show aset k₀ v ((k₀, v₀) :: tl) = (k₀, v) :: tl by simp [aset]]
      constructor
      · intro hp
        rcases List.mem_cons.mp hp with rfl | hp
        · exact Or.inl rfl
        · refine Or.inr ⟨List.mem_cons_of_mem _ hp, ?_⟩
          intro hpk
          exact hnd.1 (hpk ▸ List.mem_map.mpr ⟨p, hp, rfl⟩)
      · rintro (rfl | ⟨hp, hpk⟩)
        · exact List.mem_cons_self _ _
        · rcases List.mem_cons.mp hp with rfl | hp
          · exact absurd rfl hpk
          · exact List.mem_cons_of_mem _ hp
    · rw [show aset k v ((k₀, v₀) :: tl) = (k₀, v₀) :: aset k v tl by
        simp [aset, hk]]
      constructor
      · intro hp
        rcases List.mem_cons.mp hp with rfl | hp
        · exact Or.inr ⟨List.mem_cons_self _ _, hk⟩
        · rcases (ih hnd.2).mp hp with rfl | ⟨hp', hpk⟩
          · exact Or.inl rfl
          · exact Or.inr ⟨List.mem_cons_of_mem _ hp', hpk⟩
      · rintro (rfl | ⟨hp, hpk⟩)
        · exact List.mem_cons_of_mem _ ((ih hnd.2).mpr (Or.inl rfl))
        · rcases List.mem_cons.mp hp with rfl | hp
          · exact List.mem_cons_self _ _
          · exact List.mem_cons_of_mem _ ((ih hnd.2).mpr (Or.inr ⟨hp, hpk⟩))

theorem alookup_append {k : α} {m₁ m₂ : List (α × β)} :
    alookup k (m₁ ++ m₂) =
      match alookup k m₁ with
      | some v => some v
      | none => alookup k m₂ := by
  induction m₁ with
  | nil => simp [alookup]
  | cons hd tl ih =>
    obtain ⟨k', v'⟩ := hd
    by_cases hk : k' = k <;> simp [alookup, hk, ih]

theorem alookup_aset_self {k : α} {v : β} {m : List (α × β)} :
    alookup k (aset k v m) = some v := by
  induction m with
  | nil => simp [aset, alookup]
  | cons hd tl ih =>
    obtain ⟨k₀, v₀⟩ := hd
    by_cases hk : k₀ = k <;> simp [aset, alookup, hk, ih]

theorem alookup_aset_ne {k k' : α} {v : β} {m : List (α × β)}
    (hne : k' ≠ k) : alookup k' (aset k v m) = alookup k' m := by
  have hkk : k ≠ k' := Ne.symm hne
  induction m with
  | nil => simp [aset, alookup, hkk]
  | cons hd tl ih =>
    obtain ⟨k₀, v₀⟩ := hd
    by_cases hk : k₀ = k
    · subst hk
      simp [aset, alookup, hkk, ih]
    · by_cases hk' : k₀ = k' <;> simp [aset, alookup, hk, hk', hne, ih]

theorem mem_aerase_iff {k : α} {m : List (α × β)} {p : α × β} :
    p ∈ aerase k m ↔ p ∈ m ∧ p.1 ≠ k := by
  simp [aerase, List.mem_filter]

theorem alookup_aerase_self {k : α} {m : List (α × β)} :
    alookup k (aerase k m) = none := by
  rw [alookup_eq_none_iff]
  intro p hp
  exact (mem_aerase_iff.mp hp).2

theorem alookup_aerase_ne {k k' : α} {m : List (α × β)} (hne : k' ≠ k) :
    alookup k' (aerase k m) = alookup k' m := by
  induction m with
  | nil => rfl
  | cons hd tl ih =>
    obtain ⟨k₀, v₀⟩ := hd
    by_cases hk : k₀ = k
    · subst hk
      rw [show aerase k₀ ((k₀, v₀) :: tl) = aerase k₀ tl by simp [aerase],
        show alookup k' ((k₀, v₀) :: tl) = alookup k' tl by
          simp [alookup, Ne.symm hne]]
      exact ih
    · rw [show aerase k ((k₀, v₀) :: tl) = (k₀, v₀) :: aerase k tl by
        simp [aerase, hk]]
      by_cases hk' : k₀ = k' <;> simp [alookup, hk', ih]

theorem keys_aset_nodup {k : α} {v : β} {m : List (α × β)}
    (h : (m.map Prod.fst).Nodup) : ((aset k v m).map Prod.fst).Nodup := by
  induction m with
  | nil => simp [aset]
  | cons hd tl ih =>
    obtain ⟨k₀, v₀⟩ := hd
    simp only [List.map_cons, List.nodup_cons] at h
    by_cases hk : k₀ = k
    · subst hk
      rw [show aset k₀ v ((k₀, v₀) :: tl) = (k₀, v) :: tl by simp [aset]]
      simp only [List.map_cons, List.nodup_cons]
      exact ⟨h.1, h.2⟩
    · rw [show aset k v ((k₀, v₀) :: tl) = (k₀, v₀) :: aset k v tl by
        simp [aset, hk]]
      simp only [List.map_cons, List.nodup_cons]
      refine ⟨?_, ih h.2⟩
      intro hx
      rcases keys_aset_subset hx with rfl | hx
      · exact hk rfl
      · exact h.1 hx

theorem keys_aerase_nodup {k : α} {m : List (α × β)}
    (h : (m.map Prod.fst).Nodup) : ((aerase k m).map Prod.fst).Nodup := by
  unfold aerase
  exact ((List.filter_sublist m).map Prod.fst).nodup h

end AssocLemmas

/-! ## Lemmas about the alert registry -/

theorem getAlert_eq_none_iff {l : List LiveAlert} {i : Nat} :
    getAlert l i = none ↔ ∀ a ∈ l, a.id ≠ i := by
  induction l with
  | nil => simp [getAlert]
  | cons hd tl ih =>
    by_cases h : hd.id = i <;> simp [getAlert, h, ih]

theorem getAlert_some_id {l : List LiveAlert} {i : Nat} {a : LiveAlert}
    (h : getAlert l i = some a) : a.id = i := by
  induction l with
  | nil => simp [getAlert] at h
  | cons hd tl ih =>
    by_cases hh : hd.id = i
    · simp [getAlert, hh] at h
      exact h ▸ hh
    · simp [getAlert, hh] at h
      exact ih h

theorem getAlert_some_mem {l : List LiveAlert} {i : Nat} {a : LiveAlert}
    (h : getAlert l i = some a) : a ∈ l := by
  induction l with
  | nil => simp [getAlert] at h
  | cons hd tl ih =>
    by_cases hh : hd.id = i
    · simp [getAlert, hh] at h
      simp [h]
    · simp [getAlert, hh] at h
      exact List.mem_cons_of_mem _ (ih h)

/-- With distinct ids, lookup by an alert's own id finds exactly it. -/
theorem mem_getAlert {l : List LiveAlert} {a : LiveAlert}
    (hmem : a ∈ l) (hnd : (l.map LiveAlert.id).Nodup) :
    getAlert l a.id = some a := by
  induction l with
  | nil => simp at hmem
  | cons hd tl ih =>
    simp only [List.map_cons, List.nodup_cons] at hnd
    rcases List.mem_cons.mp hmem with rfl | h
    · simp [getAlert]
    · have hne : hd.id ≠ a.id := by
        intro he
        exact hnd.1 (he ▸ List.mem_map.mpr ⟨a, h, rfl⟩)
      simp [getAlert, hne, ih h hnd.2]

theorem id_unique {l : List LiveAlert} {a b : LiveAlert}
    (hnd : (l.map LiveAlert.id).Nodup) (ha : a ∈ l) (hb : b ∈ l)
    (hid : a.id = b.id) : a = b := by
  have h1 := mem_getAlert ha hnd
  have h2 := mem_getAlert hb hnd
  rw [hid] at h1
  rw [h1] at h2
  exact Option.some.inj h2

theorem modifyAlert_nil {i : Nat} {f : LiveAlert → LiveAlert} :
    modifyAlert [] i f = [] := rfl

theorem modifyAlert_cons {hd : LiveAlert} {tl : List LiveAlert} {i : Nat}
    {f : LiveAlert → LiveAlert} :
    modifyAlert (hd :: tl) i f =
      (if hd.id = i then f hd else hd) :: modifyAlert tl i f := rfl

theorem mem_modifyAlert_iff {l : List LiveAlert} {i : Nat}
    {f : LiveAlert → LiveAlert} {c : LiveAlert} :
    c ∈ modifyAlert l i f ↔ ∃ b ∈ l, c = if b.id = i then f b else b := by
  simp only [modifyAlert, List.mem_map]
  constructor
  · rintro ⟨b, hb, rfl⟩
    exact ⟨b, hb, rfl⟩
  · rintro ⟨b, hb, rfl⟩
    exact ⟨b, hb, rfl⟩

theorem modifyAlert_id_map {l : List LiveAlert} {i : Nat}
    {f : LiveAlert → LiveAlert} (hf : ∀ b : LiveAlert, b.id = i → (f b).id = b.id) :
    (modifyAlert l i f).map LiveAlert.id = l.map LiveAlert.id := by
  simp only [modifyAlert, List.map_map]
  apply List.map_congr_left
  intro b _
  by_cases hb : b.id = i <;> simp [hb, hf b]

theorem getAlert_modifyAlert_self {l : List LiveAlert} {i : Nat}
    {f : LiveAlert → LiveAlert} {a : LiveAlert}
    (h : getAlert l i = some a)
    (hf : ∀ b : LiveAlert, b.id = i → (f b).id = b.id) :
    getAlert (modifyAlert l i f) i = some (f a) := by
  induction l with
  | nil => simp [getAlert] at h
  | cons hd tl ih =>
    rw [modifyAlert_cons]
    by_cases hh : hd.id = i
    · simp only [getAlert, hh, if_pos] at h
      cases h
      simp [getAlert, hh, hf a hh]
    · simp only [getAlert, hh, if_neg, if_false] at h
      simp [getAlert, hh, ih h]

theorem getAlert_modifyAlert_ne {l : List LiveAlert} {i j : Nat}
    {f : LiveAlert → LiveAlert} (hne : j ≠ i)
    (hf : ∀ b : LiveAlert, b.id = i → (f b).id = b.id) :
    getAlert (modifyAlert l i f) j = getAlert l j := by
  induction l with
  | nil => rfl
  | cons hd tl ih =>
    rw [modifyAlert_cons]
    by_cases hh : hd.id = i
    · have hfi : (f hd).id = hd.id := hf hd hh
      have hj : hd.id ≠ j := fun he => hne ((he.symm.trans hh))
      simp [getAlert, hh, hfi, hj, hne, Ne.symm hne, ih]
    · by_cases hj : hd.id = j <;>
        simp [getAlert, hh, hj, hne, Ne.symm hne, ih]

theorem getAlert_append_left {l : List LiveAlert} {c : LiveAlert} {i : Nat}
    {a : LiveAlert} (h : getAlert l i = some a) :
    getAlert (l ++ [c]) i = some a := by
  induction l with
  | nil => simp [getAlert] at h
  | cons hd tl ih =>
    by_cases hh : hd.id = i <;> simp_all [getAlert, hh]

theorem getAlert_append_right {l : List LiveAlert} {c : LiveAlert} {i : Nat}
    (h : getAlert l i = none) :
    getAlert (l ++ [c]) i = if c.id = i then some c else none := by
  induction l with
  | nil => simp [getAlert]
  | cons hd tl ih =>
    by_cases hh : hd.id = i <;> simp_all [getAlert, hh]

/-! ## Projection lemmas for the composite operations -/

section Projections

variable {env : Env} {now : Nat} {ty : StreamEventType} {pid : String}
variable {s : EngineState} {al : LiveAlert} {u r act : String}
variable {note : Option String} {reason : String} {nextSt : LiveAlertState}

@[simp] theorem broadcast_alertsById :
    (broadcast env ty pid s).alertsById = s.alertsById := rfl

@[simp] theorem broadcast_active :
    (broadcast env ty pid s).activeAlertIdByPatient =
      s.activeAlertIdByPatient := rfl

@[simp] theorem broadcast_subscribers :
    (broadcast env ty pid s).subscribers = s.subscribers := rfl

@[simp] theorem broadcast_cooldowns :
    (broadcast env ty pid s).cooldowns = s.cooldowns := rfl

@[simp] theorem broadcast_sampleCount :
    (broadcast env ty pid s).sampleCountByPatient =
      s.sampleCountByPatient := rfl

@[simp] theorem broadcast_grace :
    (broadcast env ty pid s).gracePeriodByPatient =
      s.gracePeriodByPatient := rfl

@[simp] theorem broadcast_auditTrail :
    (broadcast env ty pid s).auditTrail = s.auditTrail := rfl

@[simp] theorem broadcast_nextUuid :
    (broadcast env ty pid s).nextUuid = s.nextUuid := rfl

@[simp] theorem broadcast_deliveries :
    (broadcast env ty pid s).deliveries =
      s.deliveries ++ (broadcastTargets env s.subscribers pid).map
        (fun sub => ⟨sub.id, sub.auth, ty, some pid⟩) := rfl

@[simp] theorem recordAudit_alertsById :
    (recordAudit env now al u r act note s).alertsById = s.alertsById := rfl

@[simp] theorem recordAudit_active :
    (recordAudit env now al u r act note s).activeAlertIdByPatient =
      s.activeAlertIdByPatient := rfl

@[simp] theorem recordAudit_subscribers :
    (recordAudit env now al u r act note s).subscribers = s.subscribers := rfl

@[simp] theorem recordAudit_cooldowns :
    (recordAudit env now al u r act note s).cooldowns = s.cooldowns := rfl

@[simp] theorem recordAudit_sampleCount :
    (recordAudit env now al u r act note s).sampleCountByPatient =
      s.sampleCountByPatient := rfl

@[simp] theorem recordAudit_grace :
    (recordAudit env now al u r act note s).gracePeriodByPatient =
      s.gracePeriodByPatient := rfl

@[simp] theorem recordAudit_auditTrail :
    (recordAudit env now al u r act note s).auditTrail =
      (auditEntryFor now al u r act note s.nextUuid :: s.auditTrail).take 500 :=
  rfl

@[simp] theorem recordAudit_nextUuid :
    (recordAudit env now al u r act note s).nextUuid = s.nextUuid + 1 := rfl

@[simp] theorem recordAudit_deliveries :
    (recordAudit env now al u r act note s).deliveries =
      s.deliveries ++ (broadcastTargets env s.subscribers al.patientId).map
        (fun sub => ⟨sub.id, sub.auth, .audit, some al.patientId⟩) := rfl

@[simp] theorem setCooldown_alertsById {pid : String} {tier : Nat} :
    (setCooldown now pid tier s).alertsById = s.alertsById := rfl

@[simp] theorem setCooldown_active {pid : String} {tier : Nat} :
    (setCooldown now pid tier s).activeAlertIdByPatient =
      s.activeAlertIdByPatient := rfl

@[simp] theorem setCooldown_nextUuid {pid : String} {tier : Nat} :
    (setCooldown now pid tier s).nextUuid = s.nextUuid := rfl

@[simp] theorem setCooldown_subscribers {pid : String} {tier : Nat} :
    (setCooldown now pid tier s).subscribers = s.subscribers := rfl

@[simp] theorem setCooldown_auditTrail {pid : String} {tier : Nat} :
    (setCooldown now pid tier s).auditTrail = s.auditTrail := rfl

@[simp] theorem transitionState_fst :
    (transitionState env now nextSt al s).1 = applyTransition now nextSt al :=
  rfl

@[simp] theorem transitionState_alertsById :
    (transitionState env now nextSt al s).2.alertsById =
      modifyAlert s.alertsById al.id
        (fun _ => applyTransition now nextSt al) := rfl

@[simp] theorem transitionState_active :
    (transitionState env now nextSt al s).2.activeAlertIdByPatient =
      s.activeAlertIdByPatient := rfl

@[simp] theorem transitionState_subscribers :
    (transitionState env now nextSt al s).2.subscribers = s.subscribers := rfl

@[simp] theorem transitionState_cooldowns :
    (transitionState env now nextSt al s).2.cooldowns = s.cooldowns := rfl

@[simp] theorem transitionState_sampleCount :
    (transitionState env now nextSt al s).2.sampleCountByPatient =
      s.sampleCountByPatient := rfl

@[simp] theorem transitionState_grace :
    (transitionState env now nextSt al s).2.gracePeriodByPatient =
      s.gracePeriodByPatient := rfl

@[simp] theorem transitionState_auditTrail :
    (transitionState env now nextSt al s).2.auditTrail = s.auditTrail := rfl

@[simp] theorem transitionState_nextUuid :
    (transitionState env now nextSt al s).2.nextUuid = s.nextUuid := rfl

/-- The alert value `resolveAlertInternal` writes. -/
theorem resolveAlertInternal_fst :
    (resolveAlertInternal env now al reason s).1 =
      { al with state := .RESOLVED, updatedAt := now, resolvedAt := some now,
                stateDeadlineAt := none } := rfl

@[simp] theorem resolveAlertInternal_alertsById :
    (resolveAlertInternal env now al reason s).2.alertsById =
      modifyAlert s.alertsById al.id
        (fun _ => { al with state := .RESOLVED, updatedAt := now,
                            resolvedAt := some now,
                            stateDeadlineAt := none }) := rfl

@[simp] theorem resolveAlertInternal_active :
    (resolveAlertInternal env now al reason s).2.activeAlertIdByPatient =
      dropActiveEntry al.patientId al.id s.activeAlertIdByPatient := rfl

@[simp] theorem resolveAlertInternal_subscribers :
    (resolveAlertInternal env now al reason s).2.subscribers =
      s.subscribers := rfl

@[simp] theorem resolveAlertInternal_cooldowns :
    (resolveAlertInternal env now al reason s).2.cooldowns = s.cooldowns := rfl

@[simp] theorem resolveAlertInternal_sampleCount :
    (resolveAlertInternal env now al reason s).2.sampleCountByPatient =
      s.sampleCountByPatient := rfl

@[simp] theorem resolveAlertInternal_grace :
    (resolveAlertInternal env now al reason s).2.gracePeriodByPatient =
      s.gracePeriodByPatient := rfl

@[simp] theorem resolveAlertInternal_auditTrail :
    (resolveAlertInternal env now al reason s).2.auditTrail =
      (auditEntryFor now
          { al with state := .RESOLVED, updatedAt := now,
                    resolvedAt := some now, stateDeadlineAt := none }
          "system" "System" "acknowledge" (some reason) s.nextUuid ::
        s.auditTrail).take 500 := rfl

@[simp] theorem resolveAlertInternal_nextUuid :
    (resolveAlertInternal env now al reason s).2.nextUuid = s.nextUuid + 1 :=
  rfl

end Projections

/-! ## Scorer facts (C9, C5) -/

theorem scoreSignals_tier_eq (th : Int) (r : List StreamingVitals)
    (v : StreamingVitals) :
    (scoreSignals th r v).tier = scoreToTier (sumPoints (signalsFor th r v)) := by
  simp only [scoreSignals]
  split <;> rfl

/-- C9.  The scorer maps summed signal points to a tier through the fixed
breakpoints (≥5 → 3, ≥3 → 2, ≥1 → 1, = 0 → 0); `scoreSignals` applies
exactly this map to the summed points of the fired signals, so a sample with
no firing signal yields the tier-0 no-alert result. -/
theorem claim_C9_tier_breakpoints :
    (∀ p : Nat,
      (scoreToTier p = 3 ↔ 5 ≤ p) ∧
      (scoreToTier p = 2 ↔ 3 ≤ p ∧ p < 5) ∧
      (scoreToTier p = 1 ↔ 1 ≤ p ∧ p < 3) ∧
      (scoreToTier p = 0 ↔ p = 0)) ∧
    (∀ (th : Int) (r : List StreamingVitals) (v : StreamingVitals),
      (scoreSignals th r v).tier = scoreToTier (sumPoints (signalsFor th r v))) ∧
    (∀ (th : Int) (r : List StreamingVitals) (v : StreamingVitals),
      signalsFor th r v = [] → (scoreSignals th r v).tier = 0) := by
  refine ⟨?_, scoreSignals_tier_eq, ?_⟩
  · intro p
    unfold scoreToTier
    refine ⟨?_, ?_, ?_, ?_⟩ <;> split_ifs <;> simp_all <;> omega
  · intro th r v h
    rw [scoreSignals_tier_eq, h]
    rfl

/-- Witness for C9 at concrete inputs: 5 points map to tier 3, and a clean
sample (no firing signal) scores tier 0. -/
theorem claim_C9_witness :
    scoreToTier 5 = 3 ∧ signalsFor 125 [] vClean = [] ∧
      (scoreSignals 125 [] vClean).tier = 0 :=
  ⟨(claim_C9_tier_breakpoints.1 5).1.mpr (by decide), by decide,
    claim_C9_tier_breakpoints.2.2 125 [] vClean (by decide)⟩

/-- C5 counterexample.  The claim "for every pair of tiers t1 < t2 the
recorded cooldown for t2 is shorter" fails at (t1, t2) = (1, 2): firing at
time 0 records expiry 180000 for tier 2 but only 90000 for tier 1. -/
theorem claim_C5_counterexample :
    1 < 2 ∧
    alookup ("p1", 2) (setCooldown 0 "p1" 2 initialState).cooldowns =
      some 180000 ∧
    alookup ("p1", 1) (setCooldown 0 "p1" 1 initialState).cooldowns =
      some 90000 ∧
    ¬ cooldownMs 2 < cooldownMs 1 := by
  refine ⟨by decide, by decide, by decide, by decide⟩

/-- C5 amended.  `setCooldown` records expiry `now + cooldownMs tier`; the
tier-dependent durations are 60 s (tier 3), 180 s (tier 2), 90 s (others).
The top tier's cooldown is strictly the shortest, but the durations are not
strictly decreasing in the tier: tier 2's exceeds tier 1's. -/
theorem claim_C5_cooldown_durations :
    (∀ (now : Nat) (pid : String) (tier : Nat) (s : EngineState),
      alookup (pid, tier) (setCooldown now pid tier s).cooldowns =
        some (now + cooldownMs tier)) ∧
    cooldownMs 3 < cooldownMs 1 ∧ cooldownMs 3 < cooldownMs 2 ∧
    cooldownMs 1 < cooldownMs 2 := by
  refine ⟨?_, by decide, by decide, by decide⟩
  intro now pid tier s
  exact alookup_aset_self

/-! ## Error paths of the action API (C3) -/

/-- C3.  For `acknowledgeAlert` and `caregiverAction`: an unknown alert id
yields `not_found`, an out-of-scope subject yields `forbidden`, and a
terminal alert yields `already_resolved`; in every such case the typed error
is returned to the caller and the engine state is exactly unchanged. -/
theorem claim_C3_error_paths :
    ∀ (env : Env) (now alertId : Nat) (actor : AuthTokenPayload)
      (reason : Option String) (cid : String) (act : CgAction)
      (note : Option String) (s : EngineState),
    (getAlert s.alertsById alertId = none →
      acknowledgeAlert env now alertId actor reason s =
        (.err .not_found "Alert not found.", s) ∧
      caregiverAction env now alertId cid act note s =
        (.err .not_found "Alert not found.", s)) ∧
    (∀ a, getAlert s.alertsById alertId = some a →
      (canAccessPatient env actor a.patientId = false →
        acknowledgeAlert env now alertId actor reason s =
          (.err .forbidden "Access denied.", s)) ∧
      (canAccessPatient env ⟨cid, .Caregiver, ""⟩ a.patientId = false →
        caregiverAction env now alertId cid act note s =
          (.err .forbidden "Caregiver cannot act on this patient.", s)) ∧
      (canAccessPatient env actor a.patientId = true →
        a.state = .RESOLVED →
        acknowledgeAlert env now alertId actor reason s =
          (.err .already_resolved "Alert already resolved.", s)) ∧
      (canAccessPatient env ⟨cid, .Caregiver, ""⟩ a.patientId = true →
        a.state = .RESOLVED →
        caregiverAction env now alertId cid act note s =
          (.err .already_resolved "Alert already resolved.", s))) := by
  intro env now alertId actor reason cid act note s
  constructor
  · intro h
    exact ⟨by simp [acknowledgeAlert, h], by simp [caregiverAction, h]⟩
  · intro a h
    refine ⟨?_, ?_, ?_, ?_⟩
    · intro hacc
      simp [acknowledgeAlert, h, hacc]
    · intro hacc
      simp [caregiverAction, h, hacc]
    · intro hacc hres
      simp [acknowledgeAlert, h, hacc, hres]
    · intro hacc hres
      simp [caregiverAction, h, hacc, hres]

/-- Witness for C3 at concrete inputs: an unknown id, an unassigned
caregiver, and a resolved alert each produce the typed error and leave the
state untouched. -/
theorem claim_C3_witness :
    (acknowledgeAlert envW 5 99 authCg none sBR =
      (.err .not_found "Alert not found.", sBR)) ∧
    (caregiverAction envW 5 99 "cg1" .dismiss none sBR =
      (.err .not_found "Alert not found.", sBR)) ∧
    (acknowledgeAlert envW 5 0 authCg2 none sBR =
      (.err .forbidden "Access denied.", sBR)) ∧
    (caregiverAction envW 5 0 "cg2" .acknowledge none sBR =
      (.err .forbidden "Caregiver cannot act on this patient.", sBR)) ∧
    (acknowledgeAlert envW 5 0 authCg none sRes =
      (.err .already_resolved "Alert already resolved.", sRes)) ∧
    (caregiverAction envW 5 0 "cg1" .acknowledge none sRes =
      (.err .already_resolved "Alert already resolved.", sRes)) :=
  ⟨((claim_C3_error_paths envW 5 99 authCg none "cg1" .dismiss none sBR).1
      (by decide)).1,
   ((claim_C3_error_paths envW 5 99 authCg none "cg1" .dismiss none sBR).1
      (by decide)).2,
   (((claim_C3_error_paths envW 5 0 authCg2 none "cg2" .acknowledge none
      sBR).2 aBR (by decide)).1 (by decide)),
   ((((claim_C3_error_paths envW 5 0 authCg2 none "cg2" .acknowledge none
      sBR).2 aBR (by decide)).2.1 (by decide))),
   ((((claim_C3_error_paths envW 5 0 authCg none "cg1" .acknowledge none
      sRes).2 aRes (by decide)).2.2.1 (by decide) (by decide))),
   ((((claim_C3_error_paths envW 5 0 authCg none "cg1" .acknowledge none
      sRes).2 aRes (by decide)).2.2.2 (by decide) (by decide)))⟩

/-! ## Audit trail of dismissals and internal resolutions (C10) -/

/-- C10.  A successful `dismiss` appends two audit entries: first the
caregiver's `dismiss` entry, then a system entry (`actorUserId` "system",
`actorRole` "System") whose action kind is `acknowledge` and whose note is
the dismissal reason; indeed every internal resolution records its audit
entry with the system actor and action kind `acknowledge` rather than a
resolution-specific kind. -/
theorem claim_C10_dismiss_audit :
    (∀ (env : Env) (now i : Nat) (cid : String) (note : Option String)
      (s : EngineState) (a : LiveAlert),
      getAlert s.alertsById i = some a →
      canAccessPatient env ⟨cid, .Caregiver, ""⟩ a.patientId = true →
      a.state ≠ .RESOLVED →
      (caregiverAction env now i cid .dismiss note s).2.auditTrail =
        (auditEntryFor now
            { a with state := .RESOLVED, updatedAt := now,
                     resolvedAt := some now, stateDeadlineAt := none }
            "system" "System" "acknowledge"
            (some (note.getD "Dismissed by caregiver")) (s.nextUuid + 1) ::
          (auditEntryFor now a cid "Caregiver" "dismiss" note s.nextUuid ::
            s.auditTrail).take 500).take 500) ∧
    (∀ (env : Env) (now : Nat) (a : LiveAlert) (reason : String)
      (s : EngineState),
      (resolveAlertInternal env now a reason s).2.auditTrail =
        (auditEntryFor now
            { a with state := .RESOLVED, updatedAt := now,
                     resolvedAt := some now, stateDeadlineAt := none }
            "system" "System" "acknowledge" (some reason) s.nextUuid ::
          s.auditTrail).take 500) := by
  constructor
  · intro env now i cid note s a h hacc hres
    simp [caregiverAction, h, hacc, hres, CgAction.toName]
  · intro env now a reason s
    simp

/-- Witness for C10: dismissing the reviewed alert writes the caregiver
`dismiss` entry and then the system `acknowledge` entry carrying the
dismissal note. -/
theorem claim_C10_witness :
    (caregiverAction envW 2000 0 "cg1" .dismiss (some "duplicate")
        sBR).2.auditTrail =
      (auditEntryFor 2000
          { aBR with state := .RESOLVED, updatedAt := 2000,
                     resolvedAt := some 2000, stateDeadlineAt := none }
          "system" "System" "acknowledge" (some "duplicate") 2 ::
        (auditEntryFor 2000 aBR "cg1" "Caregiver" "dismiss"
            (some "duplicate") 1 :: sBR.auditTrail).take 500).take 500 :=
  claim_C10_dismiss_audit.1 envW 2000 0 "cg1" (some "duplicate") sBR aBR
    (by decide) (by decide) (by decide)

/-! ## Acknowledging an alert already under review (C7) -/

/-- C7 counterexample.  Acknowledging the `BEING_REVIEWED` alert `aBR` at
time 2000 succeeds and leaves the state machine in `BEING_REVIEWED`, but the
stored alert is not left unchanged: the review deadline is re-armed from
1000 to 17000 (and `acknowledgedAt`/`updatedAt` are restamped), refuting
"the alert is left unchanged apart from the appended audit entry". -/
theorem claim_C7_counterexample :
    aBR.state = .BEING_REVIEWED ∧ aBR.stateDeadlineAt = some 1000 ∧
    (getAlert (acknowledgeAlert envW 2000 0 authCg none sBR).2.alertsById
        0).map LiveAlert.state = some .BEING_REVIEWED ∧
    (getAlert (acknowledgeAlert envW 2000 0 authCg none sBR).2.alertsById
        0).map LiveAlert.stateDeadlineAt = some (some 17000) ∧
    (getAlert (acknowledgeAlert envW 2000 0 authCg none sBR).2.alertsById
        0) ≠ some aBR := by
  refine ⟨rfl, rfl, by decide, by decide, by decide⟩

/-- C7 amended.  Acknowledging an already-`BEING_REVIEWED` alert succeeds
and is a no-op on the lifecycle state (still `BEING_REVIEWED`, same tier,
urgency, score and text), but it restamps `acknowledgedAt` and `updatedAt`,
re-arms the review deadline to `now + REVIEW_TO_RESOLVED_MS`, appends one
`acknowledge` audit entry, and re-broadcasts; the active registry is
untouched. -/
theorem claim_C7_ack_review :
    ∀ (env : Env) (now i : Nat) (actor : AuthTokenPayload)
      (reason : Option String) (s : EngineState) (a : LiveAlert),
    getAlert s.alertsById i = some a →
    canAccessPatient env actor a.patientId = true →
    a.state = .BEING_REVIEWED →
    (acknowledgeAlert env now i actor reason s).1 =
      .ok { a with acknowledgedAt := some now, updatedAt := now,
                   stateDeadlineAt := some (now + REVIEW_TO_RESOLVED_MS) } ∧
    getAlert (acknowledgeAlert env now i actor reason s).2.alertsById i =
      some { a with acknowledgedAt := some now, updatedAt := now,
                    stateDeadlineAt := some (now + REVIEW_TO_RESOLVED_MS) } ∧
    ({ a with acknowledgedAt := some now, updatedAt := now,
              stateDeadlineAt := some (now + REVIEW_TO_RESOLVED_MS)
        : LiveAlert }).state = .BEING_REVIEWED ∧
    (acknowledgeAlert env now i actor reason s).2.auditTrail =
      (auditEntryFor now
          { a with acknowledgedAt := some now, updatedAt := now,
                   stateDeadlineAt := some (now + REVIEW_TO_RESOLVED_MS) }
          actor.userId actor.role.toName "acknowledge" reason s.nextUuid ::
        s.auditTrail).take 500 ∧
    (acknowledgeAlert env now i actor reason s).2.activeAlertIdByPatient =
      s.activeAlertIdByPatient := by
  intro env now i actor reason s a h hacc hstate
  have hid : a.id = i := getAlert_some_id h
  have h' : getAlert s.alertsById a.id = some a := hid ▸ h
  refine ⟨?_, ?_, by simp [hstate], ?_, ?_⟩
  · simp [acknowledgeAlert, h, hacc, hstate, applyTransition]
  · have hres : getAlert
        (modifyAlert
          (modifyAlert s.alertsById a.id
            (fun _ => { a with acknowledgedAt := some now }))
          a.id
          (fun _ => applyTransition now .BEING_REVIEWED
            { a with acknowledgedAt := some now }))
        a.id =
        some (applyTransition now .BEING_REVIEWED
          { a with acknowledgedAt := some now }) := by
      apply getAlert_modifyAlert_self
      · exact getAlert_modifyAlert_self h' (by intro b hb; simp [hid, hb])
      · intro b hb
        simp [applyTransition, hid, hb]
    simp only [acknowledgeAlert, h, hacc, hstate]
    simp [hstate, applyTransition] at hres ⊢
    rw [← hid]
    convert hres using 2
  · simp [acknowledgeAlert, h, hacc, hstate, applyTransition]
  · simp [acknowledgeAlert, h, hacc, hstate]

/-- Witness for C7: the concrete reviewed alert, acknowledged at time
2000. -/
theorem claim_C7_witness :
    (acknowledgeAlert envW 2000 0 authCg none sBR).1 =
      .ok { aBR with acknowledgedAt := some 2000, updatedAt := 2000,
                     stateDeadlineAt := some 17000 } ∧
    getAlert (acknowledgeAlert envW 2000 0 authCg none sBR).2.alertsById 0 =
      some { aBR with acknowledgedAt := some 2000, updatedAt := 2000,
                      stateDeadlineAt := some 17000 } :=
  ⟨(claim_C7_ack_review envW 2000 0 authCg none sBR aBR (by decide)
      (by decide) (by decide)).1,
   (claim_C7_ack_review envW 2000 0 authCg none sBR aBR (by decide)
      (by decide) (by decide)).2.1⟩

/-! ## Injectivity of the `"|"` join on clean labels (for C6) -/

theorem string_ext {s t : String} (h : s.data = t.data) : s = t := by
  cases s
  cases t
  simp_all

/-- Splitting a concatenation at the first separator: if `a` and `b` are
separator-free and `s`, `t` are empty or start with the separator, the
decomposition is unique. -/
theorem pipe_chunk_eq :
    ∀ (a b s t : List Char), '|' ∉ a → '|' ∉ b →
      (s = [] ∨ ∃ u, s = '|' :: u) → (t = [] ∨ ∃ u, t = '|' :: u) →
      a ++ s = b ++ t → a = b ∧ s = t := by
  intro a
  induction a with
  | nil =>
    intro b s t _ hb hs ht heq
    cases b with
    | nil => exact ⟨rfl, heq⟩
    | cons c b' =>
      exfalso
      simp only [List.nil_append, List.cons_append] at heq
      rcases hs with rfl | ⟨u, rfl⟩
      · exact List.cons_ne_nil c (b' ++ t) heq.symm
      · have : c = '|' := (List.cons.inj heq).1.symm
        exact hb (this ▸ List.mem_cons_self c b')
  | cons c a' ih =>
    intro b s t ha hb hs ht heq
    cases b with
    | nil =>
      exfalso
      simp only [List.nil_append, List.cons_append] at heq
      rcases ht with rfl | ⟨u, rfl⟩
      · exact List.cons_ne_nil c (a' ++ s) heq
      · have : c = '|' := (List.cons.inj heq).1
        exact ha (this ▸ List.mem_cons_self c a')
    | cons d b' =>
      simp only [List.cons_append] at heq
      obtain ⟨hcd, htail⟩ := List.cons.inj heq
      have ha' : '|' ∉ a' := fun h => ha (List.mem_cons_of_mem _ h)
      have hb' : '|' ∉ b' := fun h => hb (List.mem_cons_of_mem _ h)
      obtain ⟨h1, h2⟩ := ih b' s t ha' hb' hs ht htail
      exact ⟨by rw [hcd, h1], h2⟩

/-- The character shape of a joined nonempty label list. -/
theorem joinPipe_data_cons (y : String) (ys : List String) :
    (joinPipe (y :: ys)).data =
      y.data ++ (if ys = [] then [] else '|' :: (joinPipe ys).data) := by
  cases ys with
  | nil => simp [joinPipe]
  | cons z zs =>
    show ((y ++ "|" ++ joinPipe (z :: zs)).data = _)
    simp [String.data_append]

theorem joinPipe_inj :
    ∀ (xs ys : List String), (∀ x ∈ xs, cleanLabel x) →
      (∀ y ∈ ys, cleanLabel y) → joinPipe xs = joinPipe ys → xs = ys := by
  intro xs
  induction xs with
  | nil =>
    intro ys _ hy h
    cases ys with
    | nil => rfl
    | cons y ys' =>
      exfalso
      have hd := congrArg String.data h
      rw [joinPipe_data_cons] at hd
      have hne : y.data ≠ [] := (hy y (List.mem_cons_self y ys')).1
      have : ([] : List Char) = y.data ++ _ := hd
      rcases List.append_eq_nil.mp this.symm with ⟨h1, _⟩
      exact hne h1
  | cons x xs' ih =>
    intro ys hx hy h
    cases ys with
    | nil =>
      exfalso
      have hd := congrArg String.data h
      rw [joinPipe_data_cons] at hd
      have hne : x.data ≠ [] := (hx x (List.mem_cons_self x xs')).1
      have : x.data ++ _ = ([] : List Char) := hd
      rcases List.append_eq_nil.mp this with ⟨h1, _⟩
      exact hne h1
    | cons y ys' =>
      have hd := congrArg String.data h
      rw [joinPipe_data_cons, joinPipe_data_cons] at hd
      have hshape : ∀ (zs : List String),
          (if zs = [] then ([] : List Char) else '|' :: (joinPipe zs).data)
            = [] ∨
          ∃ u, (if zs = [] then ([] : List Char)
            else '|' :: (joinPipe zs).data) = '|' :: u := by
        intro zs
        cases zs with
        | nil => exact Or.inl (by simp)
        | cons a as => exact Or.inr ⟨(joinPipe (a :: as)).data, by simp⟩
      obtain ⟨hhead, htail⟩ := pipe_chunk_eq x.data y.data _ _
        (hx x (List.mem_cons_self x xs')).2 (hy y (List.mem_cons_self y ys')).2
        (hshape xs') (hshape ys') hd
      have hxy : x = y := string_ext hhead
      subst hxy
      cases xs' with
      | nil =>
        cases ys' with
        | nil => rfl
        | cons b bs => simp at htail
      | cons a as =>
        cases ys' with
        | nil => simp at htail
        | cons b bs =>
          simp only [List.cons_ne_nil, if_neg] at htail
          have hdata : (joinPipe (a :: as)).data = (joinPipe (b :: bs)).data :=
            (List.cons.inj htail).2
          have hjoin : joinPipe (a :: as) = joinPipe (b :: bs) :=
            string_ext hdata
          have := ih (b :: bs) (fun z hz => hx z (List.mem_cons_of_mem _ hz))
            (fun z hz => hy z (List.mem_cons_of_mem _ hz)) hjoin
          rw [this]

/-! ## Shape of the scorer's contributor lists (for C6) -/

theorem insertDesc_perm (x : ScoredSignal) (l : List ScoredSignal) :
    List.Perm (insertDesc x l) (x :: l) := by
  induction l with
  | nil => exact List.Perm.refl _
  | cons y ys ih =>
    by_cases h : y.points > x.points
    · rw [show insertDesc x (y :: ys) = y :: insertDesc x ys by
        simp [insertDesc, h]]
      exact (ih.cons y).trans (List.Perm.swap x y ys)
    · rw [show insertDesc x (y :: ys) = x :: y :: ys by simp [insertDesc, h]]

theorem sortByPointsDesc_perm (l : List ScoredSignal) :
    List.Perm (sortByPointsDesc l) l := by
  induction l with
  | nil => exact List.Perm.refl _
  | cons x xs ih =>
    exact (insertDesc_perm x (sortByPointsDesc xs)).trans (ih.cons x)

theorem dedupFirstAux_of_nodup :
    ∀ (xs seen : List String), xs.Nodup → (∀ x ∈ xs, x ∉ seen) →
      dedupFirstAux seen xs = xs := by
  intro xs
  induction xs with
  | nil => intro seen _ _; rfl
  | cons x xs' ih =>
    intro seen hnd hs
    have hx : x ∉ seen := hs x (List.mem_cons_self x xs')
    rw [show dedupFirstAux seen (x :: xs') =
        x :: dedupFirstAux (x :: seen) xs' by simp [dedupFirstAux, hx]]
    rw [ih (x :: seen) (List.nodup_cons.mp hnd).2]
    intro z hz
    rw [List.mem_cons, not_or]
    exact ⟨fun he => (List.nodup_cons.mp hnd).1 (he ▸ hz),
      hs z (List.mem_cons_of_mem _ hz)⟩

theorem dedupFirst_of_nodup {xs : List String} (h : xs.Nodup) :
    dedupFirst xs = xs :=
  dedupFirstAux_of_nodup xs [] h (by simp)

theorem signalsFor_labels (th : Int) (r : List StreamingVitals)
    (v : StreamingVitals) :
    (∀ x ∈ signalsFor th r v, cleanLabel x.label) ∧
    ((signalsFor th r v).map ScoredSignal.label).Nodup := by
  unfold signalsFor
  split_ifs <;> exact ⟨by decide, by decide⟩

/-- The contributor lists `scoreSignals` emits: the flagged-vitals list is
exactly the (duplicate-free) top-contributor list, and every entry is a
clean label. -/
theorem scoreSignals_contributors (th : Int) (r : List StreamingVitals)
    (v : StreamingVitals) :
    (scoreSignals th r v).flaggedVitals = (scoreSignals th r v).topContributors ∧
    (∀ x ∈ (scoreSignals th r v).flaggedVitals, cleanLabel x) ∧
    (∀ x ∈ (scoreSignals th r v).topContributors, cleanLabel x) := by
  obtain ⟨hclean, hnodup⟩ := signalsFor_labels th r v
  have hperm : List.Perm
      ((sortByPointsDesc (signalsFor th r v)).map ScoredSignal.label)
      ((signalsFor th r v).map ScoredSignal.label) :=
    (sortByPointsDesc_perm (signalsFor th r v)).map ScoredSignal.label
  have htop_nodup :
      (((sortByPointsDesc (signalsFor th r v)).take 3).map
        ScoredSignal.label).Nodup := by
    have h1 : List.Sublist
        (((sortByPointsDesc (signalsFor th r v)).take 3).map
          ScoredSignal.label)
        ((sortByPointsDesc (signalsFor th r v)).map ScoredSignal.label) :=
      (List.take_sublist 3 _).map ScoredSignal.label
    exact h1.nodup (hperm.nodup_iff.mpr hnodup)
  have htop_clean : ∀ x ∈ ((sortByPointsDesc (signalsFor th r v)).take 3).map
      ScoredSignal.label, cleanLabel x := by
    intro x hx
    obtain ⟨sig, hsig, rfl⟩ := List.mem_map.mp hx
    have : sig ∈ sortByPointsDesc (signalsFor th r v) :=
      List.mem_of_mem_take hsig
    exact hclean sig ((sortByPointsDesc_perm _).mem_iff.mp this)
  simp only [scoreSignals]
  split
  · exact ⟨rfl, by simp, by simp⟩
  · refine ⟨dedupFirst_of_nodup htop_nodup, ?_, htop_clean⟩
    intro x hx
    rw [dedupFirst_of_nodup htop_nodup] at hx
    exact htop_clean x hx

/-- When the score fires (tier nonzero), the severity is derived from the
tier. -/
theorem scoreSignals_severity (th : Int) (r : List StreamingVitals)
    (v : StreamingVitals) (h : (scoreSignals th r v).tier ≠ 0) :
    (scoreSignals th r v).severity =
      some (tierToSeverity (scoreSignals th r v).tier) := by
  revert h
  simp only [scoreSignals]
  split
  · next hcond => exact fun h => absurd hcond h
  · intro _
    rfl

/-! ## Same-tier refresh (C6) -/

/-- C6 counterexample.  With active tier-2 alert `aC6` (4 risk points,
`updatedAt` 100), a tier-2 sample scoring 3 points processed at time 200
changes the mutable fields (risk points become 3) but leaves `updatedAt` at
100: the refresh path never stamps `updatedAt`, refuting "updatedAt records
the time of this mutation when fields change". -/
theorem claim_C6_counterexample :
    aC6.riskPoints = 4 ∧ aC6.updatedAt = 100 ∧
    (getAlert (processVitals envW 200 [] vTier2 sC6).alertsById 0).map
        (fun a => (a.riskPoints, a.updatedAt)) = some (3, 100) := by
  refine ⟨rfl, rfl, by decide⟩

/-- C6 amended.  When a sample scores the active alert's tier,
`processVitals` routes to `refreshAlert` (only the sample counter is also
bumped); `refreshAlert` leaves `state`, `stateDeadlineAt`, `urgencyLevel`,
`firedAt` — and also `updatedAt`, which is never restamped — unchanged, and
overwrites `riskPoints`, `title`, `message`, `flaggedVitals` and
`topContributors` with one `alert_upsert` re-broadcast exactly when at least
one of those fields differs (for the deduplicated pipe-free contributor
lists the scorer produces); otherwise it is a complete no-op. -/
theorem claim_C6_refresh_frame :
    (∀ (env : Env) (now : Nat) (r3 : List StreamingVitals)
      (v : StreamingVitals) (s : EngineState) (ea : LiveAlert),
      ¬ ((alookup v.patientId s.sampleCountByPatient).getD 0 + 1 <
        MINIMUM_SAMPLES_BEFORE_ALERTING) →
      ¬ (now < (alookup v.patientId s.gracePeriodByPatient).getD 0) →
      (alookup v.patientId s.activeAlertIdByPatient).bind
        (getAlert s.alertsById) = some ea →
      ea.state ≠ .RESOLVED →
      (scoreSignals env.sustainedHrThreshold r3 v).tier = ea.tier →
      ea.tier ≠ 0 →
      processVitals env now r3 v s =
        refreshAlert env ea (scoreSignals env.sustainedHrThreshold r3 v)
          { s with sampleCountByPatient :=
              (aset v.patientId
                ((alookup v.patientId s.sampleCountByPatient).getD 0 + 1)
                s.sampleCountByPatient) }) ∧
    (∀ (env : Env) (a : LiveAlert) (score : ScoreResult) (s : EngineState),
      a.flaggedVitals = a.topContributors →
      score.flaggedVitals = score.topContributors →
      (∀ x ∈ a.flaggedVitals, cleanLabel x) →
      (∀ x ∈ score.flaggedVitals, cleanLabel x) →
      (¬ refreshDelta a score → refreshAlert env a score s = s) ∧
      (refreshDelta a score →
        refreshAlert env a score s =
          broadcast env .alert_upsert a.patientId
            { s with alertsById := modifyAlert s.alertsById a.id (fun _ =>
                { a with riskPoints := score.points, title := score.title,
                         message := score.message,
                         flaggedVitals := score.flaggedVitals,
                         topContributors := score.topContributors }) })) := by
  constructor
  · intro env now r3 v s ea hcount hgrace hactive hstate htier htier0
    have hsev := scoreSignals_severity env.sustainedHrThreshold r3 v
      (by rw [htier]; exact htier0)
    have hnotgt : ¬ (scoreSignals env.sustainedHrThreshold r3 v).tier >
        ea.tier := by
      rw [htier]
      exact lt_irrefl ea.tier
    have htier0' : ¬ (scoreSignals env.sustainedHrThreshold r3 v).tier = 0 :=
      by rw [htier]; exact htier0
    simp only [processVitals, if_neg hcount, if_neg hgrace]
    rw [hsev]
    simp only [if_neg htier0']
    have hactive' : (alookup v.patientId s.activeAlertIdByPatient).bind
        (getAlert s.alertsById) = some ea := hactive
    rw [show (({ s with sampleCountByPatient :=
        (aset v.patientId
          ((alookup v.patientId s.sampleCountByPatient).getD 0 + 1)
          s.sampleCountByPatient) } :
        EngineState).activeAlertIdByPatient) = s.activeAlertIdByPatient
      from rfl]
    rw [hactive']
    simp only [hstate, if_pos, ne_eq, not_false_iff, if_true, if_neg hnotgt,
      if_pos htier]
  · intro env a score s h1 h2 hca hcs
    have hjoin : joinPipe a.flaggedVitals = joinPipe score.flaggedVitals ↔
        a.flaggedVitals = score.flaggedVitals :=
      ⟨fun h => joinPipe_inj _ _ hca hcs h, fun h => h ▸ rfl⟩
    have hdelta : (a.riskPoints ≠ score.points ∨ a.title ≠ score.title ∨
        a.message ≠ score.message ∨
        joinPipe a.flaggedVitals ≠ joinPipe score.flaggedVitals) ↔
        refreshDelta a score := by
      unfold refreshDelta
      rw [← h1, ← h2]
      constructor
      · rintro (h | h | h | h)
        · exact Or.inl h
        · exact Or.inr (Or.inl h)
        · exact Or.inr (Or.inr (Or.inl h))
        · exact Or.inr (Or.inr (Or.inr (Or.inl (fun he => h (he ▸ rfl)))))
      · rintro (h | h | h | h | h)
        · exact Or.inl h
        · exact Or.inr (Or.inl h)
        · exact Or.inr (Or.inr (Or.inl h))
        · exact Or.inr (Or.inr (Or.inr (fun he => h (hjoin.mp he))))
        · exact Or.inr (Or.inr (Or.inr (fun he => h (hjoin.mp he))))
    constructor
    · intro hnd
      have hcond : ¬ (a.riskPoints ≠ score.points ∨ a.title ≠ score.title ∨
          a.message ≠ score.message ∨
          joinPipe a.flaggedVitals ≠ joinPipe score.flaggedVitals) :=
        fun hc => hnd (hdelta.mp hc)
      simp only [refreshAlert, if_neg hcond]
    · intro hd
      have hcond : (a.riskPoints ≠ score.points ∨ a.title ≠ score.title ∨
          a.message ≠ score.message ∨
          joinPipe a.flaggedVitals ≠ joinPipe score.flaggedVitals) :=
        hdelta.mpr hd
      simp only [refreshAlert, if_pos hcond]

/-- Witness for C6: the concrete tier-2 refresh.  The hypotheses hold for
the scorer's own output on `vTier2`, the delta (4 ≠ 3 risk points) forces
the overwrite-and-broadcast branch, and the no-delta branch is exercised by
refreshing with the alert's own fields. -/
theorem claim_C6_witness :
    processVitals envW 200 [] vTier2 sC6 =
      refreshAlert envW aC6 (scoreSignals 125 [] vTier2)
        { sC6 with sampleCountByPatient := [("p1", 12)] } ∧
    refreshAlert envW aC6 (scoreSignals 125 [] vTier2)
        { sC6 with sampleCountByPatient := [("p1", 12)] } =
      broadcast envW .alert_upsert "p1"
        { { sC6 with sampleCountByPatient := [("p1", 12)] } with
            alertsById := modifyAlert sC6.alertsById 0 (fun _ =>
              { aC6 with riskPoints := 3,
                         title := (scoreSignals 125 [] vTier2).title,
                         message := (scoreSignals 125 [] vTier2).message,
                         flaggedVitals :=
                           (scoreSignals 125 [] vTier2).flaggedVitals,
                         topContributors :=
                           (scoreSignals 125 [] vTier2).topContributors }) } := by
  constructor
  · have h := claim_C6_refresh_frame.1 envW 200 [] vTier2 sC6 aC6
      (by decide) (by decide) (by decide) (by decide) (by decide) (by decide)
    rw [h]
    rfl
  · have h := (claim_C6_refresh_frame.2 envW aC6 (scoreSignals 125 [] vTier2)
      { sC6 with sampleCountByPatient := [("p1", 12)] }
      rfl (scoreSignals_contributors 125 [] vTier2).1.symm
      (by decide) (scoreSignals_contributors 125 [] vTier2).2.1).2
      (by decide)
    rw [h]
    rfl

/-! ## Scoped fan-out (C4) -/

theorem canAccess_iff_inScope (env : Env) (auth : AuthTokenPayload)
    (pid : String) :
    canAccessPatient env auth pid = true ↔ inScope env auth pid := by
  unfold canAccessPatient inScope
  cases h : auth.role <;> simp [h, List.contains_iff_exists_mem_beq, beq_iff_eq]

theorem mem_broadcastTargets {env : Env} {subs : List Subscriber}
    {pid : String} {sub : Subscriber} :
    sub ∈ broadcastTargets env subs pid ↔
      sub ∈ subs ∧ canAccessPatient env sub.auth pid = true := by
  simp [broadcastTargets, List.mem_filter]

theorem extendsScoped_refl (env : Env) (s : EngineState) :
    extendsScoped env s s := fun d hd => Or.inl hd

theorem extendsScoped_trans {env : Env} {s₁ s₂ s₃ : EngineState}
    (h1 : extendsScoped env s₁ s₂) (h2 : extendsScoped env s₂ s₃) :
    extendsScoped env s₁ s₃ := by
  intro d hd
  rcases h2 d hd with h | h
  · exact h1 d h
  · exact Or.inr h

theorem extendsScoped_of_eq {env : Env} {s s' : EngineState}
    (h : s'.deliveries = s.deliveries) : extendsScoped env s s' :=
  fun d hd => Or.inl (h ▸ hd)

theorem extendsScoped_base {env : Env} {s₀ s s' : EngineState}
    (h : s.deliveries = s₀.deliveries) (hx : extendsScoped env s s') :
    extendsScoped env s₀ s' := by
  intro d hd
  rcases hx d hd with hmem | hok
  · exact Or.inl (h ▸ hmem)
  · exact Or.inr hok

theorem extends_broadcast (env : Env) (ty : StreamEventType) (pid : String)
    (s : EngineState) : extendsScoped env s (broadcast env ty pid s) := by
  intro d hd
  rw [broadcast_deliveries] at hd
  rcases List.mem_append.mp hd with h | h
  · exact Or.inl h
  · right
    obtain ⟨sub, hsub, rfl⟩ := List.mem_map.mp h
    intro pid' hp
    cases hp
    exact (canAccess_iff_inScope env sub.auth pid).mp
      (mem_broadcastTargets.mp hsub).2

theorem extends_recordAudit (env : Env) (now : Nat) (al : LiveAlert)
    (u r act : String) (note : Option String) (s : EngineState) :
    extendsScoped env s (recordAudit env now al u r act note s) := by
  intro d hd
  rw [recordAudit_deliveries] at hd
  rcases List.mem_append.mp hd with h | h
  · exact Or.inl h
  · right
    obtain ⟨sub, hsub, rfl⟩ := List.mem_map.mp h
    intro pid' hp
    cases hp
    exact (canAccess_iff_inScope env sub.auth al.patientId).mp
      (mem_broadcastTargets.mp hsub).2

theorem transitionState_deliveries {env : Env} {now : Nat}
    {nextSt : LiveAlertState} {al : LiveAlert} {s : EngineState} :
    (transitionState env now nextSt al s).2.deliveries =
      s.deliveries ++
        (broadcastTargets env s.subscribers
          (applyTransition now nextSt al).patientId).map
          (fun sub => ⟨sub.id, sub.auth, .alert_upsert,
            some (applyTransition now nextSt al).patientId⟩) := rfl

theorem extends_transitionState (env : Env) (now : Nat)
    (nextSt : LiveAlertState) (al : LiveAlert) (s : EngineState) :
    extendsScoped env s (transitionState env now nextSt al s).2 := by
  intro d hd
  rw [transitionState_deliveries] at hd
  rcases List.mem_append.mp hd with h | h
  · exact Or.inl h
  · right
    obtain ⟨sub, hsub, rfl⟩ := List.mem_map.mp h
    intro pid' hp
    cases hp
    exact (canAccess_iff_inScope env sub.auth _).mp
      (mem_broadcastTargets.mp hsub).2

theorem extends_resolveAlertInternal (env : Env) (now : Nat) (al : LiveAlert)
    (reason : String) (s : EngineState) :
    extendsScoped env s (resolveAlertInternal env now al reason s).2 := by
  unfold resolveAlertInternal
  refine extendsScoped_trans ?_ (extends_broadcast _ _ _ _)
  exact extendsScoped_base (by rfl) (extends_recordAudit _ _ _ _ _ _ _ _)

theorem extends_refreshAlert (env : Env) (a : LiveAlert) (score : ScoreResult)
    (s : EngineState) : extendsScoped env s (refreshAlert env a score s) := by
  unfold refreshAlert
  dsimp only
  split
  · exact extendsScoped_base (by rfl) (extends_broadcast _ _ _ _)
  · exact extendsScoped_refl _ _

theorem extends_openAlert (env : Env) (now : Nat) (v : StreamingVitals)
    (score : ScoreResult) (sev : String) (s : EngineState) :
    extendsScoped env s (openAlert env now v score sev s) := by
  unfold openAlert
  split
  · exact extendsScoped_refl _ _
  · exact extendsScoped_base (by rfl) (extends_broadcast _ _ _ _)

theorem extends_processVitals (env : Env) (now : Nat)
    (r3 : List StreamingVitals) (v : StreamingVitals) (s : EngineState) :
    extendsScoped env s (processVitals env now r3 v s) := by
  unfold processVitals
  dsimp only
  split
  · exact extendsScoped_of_eq rfl
  · split
    · exact extendsScoped_of_eq rfl
    · split
      · exact extendsScoped_of_eq rfl
      · split
        · exact extendsScoped_of_eq rfl
        · split
          · split
            · split
              · refine extendsScoped_trans ?_ (extends_openAlert _ _ _ _ _ _)
                exact extendsScoped_base (by rfl)
                  (extends_resolveAlertInternal _ _ _ _ _)
              · split
                · exact extendsScoped_base (by rfl)
                    (extends_refreshAlert _ _ _ _)
                · exact extendsScoped_of_eq rfl
            · exact extendsScoped_base (by rfl)
                (extends_openAlert _ _ _ _ _ _)
          · exact extendsScoped_base (by rfl) (extends_openAlert _ _ _ _ _ _)

theorem extends_tickEntry (env : Env) (now : Nat) (s : EngineState)
    (e : String × Nat) : extendsScoped env s (tickEntry env now s e) := by
  unfold tickEntry
  split
  · exact extendsScoped_refl _ _
  · split
    · exact extendsScoped_refl _ _
    · split
      · exact extendsScoped_refl _ _
      · split
        · exact extendsScoped_refl _ _
        · split
          · exact extends_transitionState _ _ _ _ _
          · exact extendsScoped_base (by rfl)
              (extends_transitionState _ _ _ _ _)
          · exact extends_transitionState _ _ _ _ _
          · exact extends_resolveAlertInternal _ _ _ _ _
          · exact extendsScoped_refl _ _

theorem extends_foldTick (env : Env) (now : Nat) :
    ∀ (entries : List (String × Nat)) (s : EngineState),
      extendsScoped env s (entries.foldl (tickEntry env now) s) := by
  intro entries
  induction entries with
  | nil => exact fun s => extendsScoped_refl _ _
  | cons e rest ih =>
    intro s
    exact extendsScoped_trans (extends_tickEntry env now s e)
      (ih (tickEntry env now s e))

theorem extends_advanceStateMachine (env : Env) (now : Nat)
    (s : EngineState) : extendsScoped env s (advanceStateMachine env now s) :=
  extends_foldTick env now s.activeAlertIdByPatient s

theorem extends_acknowledgeAlert (env : Env) (now : Nat) (alertId : Nat)
    (actor : AuthTokenPayload) (reason : Option String) (s : EngineState) :
    extendsScoped env s (acknowledgeAlert env now alertId actor reason s).2 := by
  unfold acknowledgeAlert
  dsimp only
  split
  · exact extendsScoped_refl _ _
  · split
    · exact extendsScoped_refl _ _
    · split
      · exact extendsScoped_refl _ _
      · refine extendsScoped_trans ?_ (extends_recordAudit _ _ _ _ _ _ _ _)
        exact extendsScoped_base (by rfl) (extends_transitionState _ _ _ _ _)

theorem extends_caregiverAction (env : Env) (now : Nat) (alertId : Nat)
    (cid : String) (action : CgAction) (note : Option String)
    (s : EngineState) :
    extendsScoped env s
      (caregiverAction env now alertId cid action note s).2 := by
  unfold caregiverAction
  dsimp only
  split
  · exact extendsScoped_refl _ _
  · split
    · exact extendsScoped_refl _ _
    · split
      · exact extendsScoped_refl _ _
      · split
        · refine extendsScoped_trans ?_ (extends_resolveAlertInternal _ _ _ _ _)
          exact extends_recordAudit _ _ _ _ _ _ _ _
        · refine extendsScoped_trans ?_ (extends_recordAudit _ _ _ _ _ _ _ _)
          exact extends_transitionState _ _ _ _ _

theorem extends_bulkAcknowledge (env : Env) (now : Nat) (cid : String)
    (tier? : Option Nat) (s : EngineState) :
    extendsScoped env s (bulkAcknowledge env now cid tier? s).2 := by
  unfold bulkAcknowledge
  generalize (s.alertsById.map LiveAlert.id) = ids
  suffices h : ∀ (ids : List Nat) (acc : (Nat × List Nat) × EngineState),
      extendsScoped env acc.2
        (ids.foldl (bulkStep env now cid tier?) acc).2 by
    exact h ids ((0, []), s)
  intro ids
  induction ids with
  | nil => exact fun acc => extendsScoped_refl _ _
  | cons i rest ih =>
    intro acc
    refine extendsScoped_trans ?_ (ih _)
    unfold bulkStep
    dsimp only
    split
    · exact extendsScoped_refl _ _
    · split
      · exact extendsScoped_refl _ _
      · split
        · exact extendsScoped_refl _ _
        · split
          · exact extendsScoped_refl _ _
          · split
            · exact extends_caregiverAction _ _ _ _ _ _ _
            · exact extends_caregiverAction _ _ _ _ _ _ _

theorem graceFold_deliveries (now : Nat) :
    ∀ (pids : List String) (st : EngineState),
      (pids.foldl
        (fun st patientId =>
          { st with gracePeriodByPatient :=
              (aset patientId
                (max ((alookup patientId st.gracePeriodByPatient).getD 0)
                  (now + 20000))
                st.gracePeriodByPatient) })
        st).deliveries = st.deliveries := by
  intro pids
  induction pids with
  | nil => intro st; rfl
  | cons p ps ih =>
    intro st
    rw [List.foldl_cons, ih]

theorem addSubscriber_deliveries (env : Env) (now : Nat)
    (auth : AuthTokenPayload) (s : EngineState) :
    (addSubscriber env now auth s).2.deliveries =
      s.deliveries ++ [⟨s.nextUuid, auth, .init, none⟩] := by
  unfold addSubscriber
  dsimp only
  cases auth.role with
  | Patient => rfl
  | Caregiver =>
    dsimp only
    rw [graceFold_deliveries]

theorem extends_addSubscriber (env : Env) (now : Nat)
    (auth : AuthTokenPayload) (s : EngineState) :
    extendsScoped env s (addSubscriber env now auth s).2 := by
  have hdel := addSubscriber_deliveries env now auth s
  intro d hd
  rw [hdel] at hd
  rcases List.mem_append.mp hd with h | h
  · exact Or.inl h
  · right
    rcases List.mem_singleton.mp h with rfl
    intro pid hp
    cases hp

theorem extends_removeSubscriber (env : Env) (subscriberId : Nat)
    (s : EngineState) :
    extendsScoped env s (removeSubscriber subscriberId s) :=
  extendsScoped_of_eq rfl

/-- Every public entry point only appends properly scoped deliveries. -/
theorem extends_step {env : Env} {s s' : EngineState} (h : Step env s s') :
    extendsScoped env s s' := by
  cases h with
  | vitals now r3 v s => exact extends_processVitals env now r3 v s
  | tick now s => exact extends_advanceStateMachine env now s
  | ack now alertId actor reason s =>
    exact extends_acknowledgeAlert env now alertId actor reason s
  | cg now alertId cid action note s =>
    exact extends_caregiverAction env now alertId cid action note s
  | bulk now cid tier? s => exact extends_bulkAcknowledge env now cid tier? s
  | subscribe now auth s => exact extends_addSubscriber env now auth s
  | unsubscribe subscriberId s =>
    exact extends_removeSubscriber env subscriberId s

/-- C4.  (a) A `broadcast` for a subject delivers the event to exactly the
registered subscribers whose visibility scope includes that subject — a
patient only for its own id, a caregiver only for an assigned patient — and
to nobody else.  (b) Over every reachable engine trace, each logged delivery
concerning a subject went to a principal whose scope included that subject,
so a subscriber's event stream never carries out-of-scope alerts. -/
theorem claim_C4_scoped_fanout :
    (∀ (env : Env) (ty : StreamEventType) (pid : String) (s : EngineState)
      (d : Delivery),
      d ∈ (broadcast env ty pid s).deliveries ↔
        d ∈ s.deliveries ∨
        ∃ sub ∈ s.subscribers, d = ⟨sub.id, sub.auth, ty, some pid⟩ ∧
          inScope env sub.auth pid) ∧
    (∀ (env : Env) (s : EngineState), Reachable env s →
      deliveriesScoped env s) := by
  constructor
  · intro env ty pid s d
    rw [broadcast_deliveries, List.mem_append]
    constructor
    · rintro (h | h)
      · exact Or.inl h
      · right
        obtain ⟨sub, hsub, rfl⟩ := List.mem_map.mp h
        obtain ⟨hmem, hacc⟩ := mem_broadcastTargets.mp hsub
        exact ⟨sub, hmem, rfl, (canAccess_iff_inScope env sub.auth pid).mp hacc⟩
    · rintro (h | ⟨sub, hmem, rfl, hsc⟩)
      · exact Or.inl h
      · right
        refine List.mem_map.mpr ⟨sub, ?_, rfl⟩
        exact mem_broadcastTargets.mpr
          ⟨hmem, (canAccess_iff_inScope env sub.auth pid).mpr hsc⟩
  · intro env s hreach
    induction hreach with
    | init => intro d hd; cases hd
    | step hr hstep ih =>
      intro d hd
      rcases extends_step hstep d hd with h | h
      · exact ih d h
      · exact h

/-- Witness for C4: the empty initial trace is scoped, and on a concrete
state with one subscribed caregiver the broadcast-membership
characterization produces the expected delivery. -/
theorem claim_C4_witness :
    deliveriesScoped envW initialState ∧
    (⟨7, authCg, .alert_upsert, some "p1"⟩ : Delivery) ∈
      (broadcast envW .alert_upsert "p1"
        { initialState with subscribers := [⟨7, authCg⟩] }).deliveries :=
  ⟨claim_C4_scoped_fanout.2 envW initialState Reachable.init,
   (claim_C4_scoped_fanout.1 envW .alert_upsert "p1"
      { initialState with subscribers := [⟨7, authCg⟩] }
      ⟨7, authCg, .alert_upsert, some "p1"⟩).mpr
     (Or.inr ⟨⟨7, authCg⟩, by decide, rfl, by decide⟩)⟩

/-! ## Preservation of the registry invariants (for C1, C2, C8) -/

theorem wf_unique {s : EngineState} (hwf : WellFormed s) {a b : LiveAlert}
    (ha : a ∈ s.alertsById) (hb : b ∈ s.alertsById)
    (hp : a.patientId = b.patientId) (hsa : a.state ≠ .RESOLVED)
    (hsb : b.state ≠ .RESOLVED) : a = b := by
  obtain ⟨hnd, _, _, _, hcomp⟩ := hwf
  have h1 := hcomp a ha hsa
  have h2 := hcomp b hb hsb
  rw [hp, h2] at h1
  exact id_unique hnd ha hb (Option.some.inj h1).symm

/-- An active-registry entry resolves (under the invariants) to the alert
`getAlert` returns. -/
theorem wf_active_getAlert {s : EngineState} (hwf : WellFormed s)
    {p : String} {i : Nat} (h : alookup p s.activeAlertIdByPatient = some i) :
    ∃ a, getAlert s.alertsById i = some a ∧ a.id = i ∧ a.patientId = p ∧
      a.state ≠ .RESOLVED := by
  obtain ⟨hnd, _, _, hsound, _⟩ := hwf
  obtain ⟨a, hmem, hid, hp, hst⟩ := hsound p i (alookup_mem h)
  exact ⟨a, by rw [← hid]; exact mem_getAlert hmem hnd, hid, hp, hst⟩

/-- The invariants only mention the alert registry, the active map and the
uuid counter; the counter may grow. -/
theorem wf_transfer {s s' : EngineState} (hwf : WellFormed s)
    (h1 : s'.alertsById = s.alertsById)
    (h2 : s'.activeAlertIdByPatient = s.activeAlertIdByPatient)
    (h3 : s.nextUuid ≤ s'.nextUuid) : WellFormed s' := by
  obtain ⟨w1, w2, w3, w4, w5⟩ := hwf
  refine ⟨?_, ?_, ?_, ?_, ?_⟩
  · rw [h1]; exact w1
  · rw [h1]; intro a ha; exact lt_of_lt_of_le (w2 a ha) h3
  · rw [h2]; exact w3
  · rw [h1, h2]; exact w4
  · rw [h1, h2]; exact w5

/-- Replacing a registered non-terminal alert by a non-terminal alert with
the same id and subject preserves the invariants. -/
theorem wf_modifyNonterminal {s : EngineState} (hwf : WellFormed s)
    {a : LiveAlert} (a' : LiveAlert)
    (ha : getAlert s.alertsById a.id = some a)
    (hsa : a.state ≠ .RESOLVED) (hid : a'.id = a.id)
    (hp : a'.patientId = a.patientId) (hsa' : a'.state ≠ .RESOLVED)
    {s' : EngineState}
    (h1 : s'.alertsById = modifyAlert s.alertsById a.id (fun _ => a'))
    (h2 : s'.activeAlertIdByPatient = s.activeAlertIdByPatient)
    (h3 : s.nextUuid ≤ s'.nextUuid) : WellFormed s' := by
  obtain ⟨w1, w2, w3, w4, w5⟩ := hwf
  have hamem : a ∈ s.alertsById := getAlert_some_mem ha
  have hf : ∀ b : LiveAlert, b.id = a.id → ((fun _ => a') b).id = b.id := by
    intro b hb
    simp [hid, hb]
  have hidsmap : (modifyAlert s.alertsById a.id (fun _ => a')).map
      LiveAlert.id = s.alertsById.map LiveAlert.id := modifyAlert_id_map hf
  refine ⟨?_, ?_, ?_, ?_, ?_⟩
  · rw [h1, hidsmap]; exact w1
  · rw [h1]
    intro b hb
    rcases mem_modifyAlert_iff.mp hb with ⟨c, hc, rfl⟩
    by_cases hcid : c.id = a.id
    · simp only [hcid, if_pos]
      calc a'.id = a.id := hid
        _ < s.nextUuid := w2 a hamem
        _ ≤ s'.nextUuid := h3
    · simp only [hcid, if_neg, if_false]
      exact lt_of_lt_of_le (w2 c hc) h3
  · rw [h2]; exact w3
  · rw [h1, h2]
    intro p i hpi
    obtain ⟨b, hb, hbid, hbp, hbst⟩ := w4 p i hpi
    by_cases hcase : b.id = a.id
    · have hba : b = a := id_unique w1 hb hamem hcase
      subst hba
      refine ⟨a', ?_, hid.trans hbid, hp.trans hbp, hsa'⟩
      exact mem_modifyAlert_iff.mpr ⟨b, hb, by simp⟩
    · refine ⟨b, ?_, hbid, hbp, hbst⟩
      exact mem_modifyAlert_iff.mpr ⟨b, hb, by simp [hcase]⟩
  · rw [h1, h2]
    intro c hc hcst
    rcases mem_modifyAlert_iff.mp hc with ⟨b, hb, rfl⟩
    by_cases hcase : b.id = a.id
    · rw [if_pos hcase] at hcst ⊢
      rw [hp, hid]
      exact w5 a hamem hsa
    · rw [if_neg hcase] at hcst ⊢
      exact w5 b hb hcst

/-- `resolveAlertInternal` on a registered non-terminal alert preserves the
invariants. -/
theorem wf_resolveAlertInternal {s : EngineState} (hwf : WellFormed s)
    {a : LiveAlert} (ha : getAlert s.alertsById a.id = some a)
    (hsa : a.state ≠ .RESOLVED) (env : Env) (now : Nat) (reason : String) :
    WellFormed (resolveAlertInternal env now a reason s).2 := by
  obtain ⟨w1, w2, w3, w4, w5⟩ := hwf
  have hamem : a ∈ s.alertsById := getAlert_some_mem ha
  have hlook : alookup a.patientId s.activeAlertIdByPatient = some a.id :=
    w5 a hamem hsa
  have hdrop : dropActiveEntry a.patientId a.id s.activeAlertIdByPatient =
      aerase a.patientId s.activeAlertIdByPatient := by
    unfold dropActiveEntry
    rw [if_pos hlook]
  have hf : ∀ b : LiveAlert, b.id = a.id →
      ((fun _ => { a with state := LiveAlertState.RESOLVED,
                          updatedAt := now, resolvedAt := some now,
                          stateDeadlineAt := none }) b).id = b.id := by
    intro b hb
    simp [hb]
  refine ⟨?_, ?_, ?_, ?_, ?_⟩
  · rw [resolveAlertInternal_alertsById, modifyAlert_id_map hf]
    exact w1
  · rw [resolveAlertInternal_alertsById]
    intro b hb
    rcases mem_modifyAlert_iff.mp hb with ⟨c, hc, rfl⟩
    rw [resolveAlertInternal_nextUuid]
    by_cases hcid : c.id = a.id
    · simp only [hcid, if_pos]
      exact lt_of_lt_of_le (w2 a hamem) (Nat.le_succ _)
    · simp only [hcid, if_neg, if_false]
      exact lt_of_lt_of_le (w2 c hc) (Nat.le_succ _)
  · rw [resolveAlertInternal_active, hdrop]
    exact keys_aerase_nodup w3
  · rw [resolveAlertInternal_active, resolveAlertInternal_alertsById, hdrop]
    intro p i hpi
    obtain ⟨hmem, hne⟩ := mem_aerase_iff.mp hpi
    obtain ⟨b, hb, hbid, hbp, hbst⟩ := w4 p i hmem
    have hcase : b.id ≠ a.id := by
      intro he
      have : b = a := id_unique w1 hb hamem he
      exact hne (by rw [← hbp, this])
    refine ⟨b, ?_, hbid, hbp, hbst⟩
    exact mem_modifyAlert_iff.mpr ⟨b, hb, by simp [hcase]⟩
  · rw [resolveAlertInternal_active, resolveAlertInternal_alertsById, hdrop]
    intro c hc hcst
    rcases mem_modifyAlert_iff.mp hc with ⟨b, hb, rfl⟩
    by_cases hcase : b.id = a.id
    · simp only [hcase, if_pos] at hcst
      exact absurd rfl hcst
    · simp only [hcase, if_neg, if_false] at hcst ⊢
      have hbp : b.patientId ≠ a.patientId := by
        intro he
        exact hcase (congrArg LiveAlert.id (wf_unique ⟨w1, w2, w3, w4, w5⟩
          hb hamem he hcst hsa))
      rw [alookup_aerase_ne hbp]
      exact w5 b hb hcst

/-- Opening a fresh alert for a subject with no active-registry entry
preserves the invariants. -/
theorem wf_openAlert {s : EngineState} (hwf : WellFormed s) (env : Env)
    (now : Nat) (v : StreamingVitals) (score : ScoreResult) (sev : String)
    (hnone : alookup v.patientId s.activeAlertIdByPatient = none) :
    WellFormed (openAlert env now v score sev s) := by
  obtain ⟨w1, w2, w3, w4, w5⟩ := hwf
  unfold openAlert
  dsimp only
  split
  · exact ⟨w1, w2, w3, w4, w5⟩
  · refine ⟨?_, ?_, ?_, ?_, ?_⟩ <;>
      simp only [broadcast_alertsById, broadcast_active, broadcast_nextUuid,
        setCooldown_alertsById, setCooldown_active, setCooldown_nextUuid]
    · show ((s.alertsById ++ [_]).map LiveAlert.id).Nodup
      rw [List.map_append]
      simp only [List.map_cons, List.map_nil]
      rw [List.nodup_append]
      refine ⟨w1, List.nodup_singleton _, ?_⟩
      intro x hx hx'
      simp only [List.mem_singleton] at hx'
      subst hx'
      obtain ⟨b, hb, hbid⟩ := List.mem_map.mp hx
      exact absurd hbid (Nat.ne_of_lt (w2 b hb))
    · intro b hb
      rcases List.mem_append.mp hb with h | h
      · exact lt_of_lt_of_le (w2 b h) (Nat.le_succ _)
      · rcases List.mem_singleton.mp h with rfl
        exact Nat.lt_succ_self _
    · exact keys_aset_nodup w3
    · intro p i hpi
      rcases (mem_aset_iff w3).mp hpi with heq | ⟨hmem, hne⟩
      · obtain ⟨rfl, rfl⟩ := Prod.mk.injEq .. ▸ And.intro
          (congrArg Prod.fst heq) (congrArg Prod.snd heq)
        refine ⟨_, List.mem_append.mpr (Or.inr (List.mem_singleton.mpr rfl)),
          rfl, rfl, ?_⟩
        simp
      · obtain ⟨b, hb, hbid, hbp, hbst⟩ := w4 p i hmem
        exact ⟨b, List.mem_append.mpr (Or.inl hb), hbid, hbp, hbst⟩
    · intro c hc hcst
      rcases List.mem_append.mp hc with h | h
      · have hcp : c.patientId ≠ v.patientId := by
          intro he
          have := w5 c h hcst
          rw [he, hnone] at this
          cases this
        rw [alookup_aset_ne hcp]
        exact w5 c h hcst
      · rcases List.mem_singleton.mp h with rfl
        exact alookup_aset_self

theorem applyTransition_id (now : Nat) (st : LiveAlertState) (a : LiveAlert) :
    (applyTransition now st a).id = a.id := by
  cases st <;> rfl

theorem applyTransition_patientId (now : Nat) (st : LiveAlertState)
    (a : LiveAlert) : (applyTransition now st a).patientId = a.patientId := by
  cases st <;> rfl

theorem applyTransition_state (now : Nat) (st : LiveAlertState)
    (a : LiveAlert) : (applyTransition now st a).state = st := by
  cases st <;> rfl

theorem wf_refreshAlert {s : EngineState} (hwf : WellFormed s) (env : Env)
    {ea : LiveAlert} (ha : getAlert s.alertsById ea.id = some ea)
    (hst : ea.state ≠ .RESOLVED) (score : ScoreResult) :
    WellFormed (refreshAlert env ea score s) := by
  unfold refreshAlert
  dsimp only
  split
  · exact wf_modifyNonterminal hwf
      { ea with riskPoints := score.points, title := score.title,
                message := score.message, flaggedVitals := score.flaggedVitals,
                topContributors := score.topContributors }
      ha hst rfl rfl hst
      (by rw [broadcast_alertsById]) (by rw [broadcast_active]) le_rfl
  · exact hwf

theorem wf_transitionState {s : EngineState} (hwf : WellFormed s) (env : Env)
    (now : Nat) (st : LiveAlertState) (hstne : st ≠ .RESOLVED)
    {a : LiveAlert} (ha : getAlert s.alertsById a.id = some a)
    (hsa : a.state ≠ .RESOLVED) :
    WellFormed (transitionState env now st a s).2 := by
  refine wf_modifyNonterminal hwf (applyTransition now st a) ha hsa
    (applyTransition_id now st a)
    (applyTransition_patientId now st a) ?_ (by rw [transitionState_alertsById])
    (by rw [transitionState_active]) le_rfl
  rw [applyTransition_state]
  exact hstne

theorem wf_acknowledgeAlert {s : EngineState} (hwf : WellFormed s) (env : Env)
    (now alertId : Nat) (actor : AuthTokenPayload) (reason : Option String) :
    WellFormed (acknowledgeAlert env now alertId actor reason s).2 := by
  unfold acknowledgeAlert
  dsimp only
  split
  · exact hwf
  · next alert heq =>
    split
    · exact hwf
    · split
      · exact hwf
      · have hid : alert.id = alertId := getAlert_some_id heq
        have ha : getAlert s.alertsById alert.id = some alert := by
          rw [hid]; exact heq
        next hres =>
        have hwf1 : WellFormed { s with alertsById :=
            (modifyAlert s.alertsById
              ({ alert with acknowledgedAt := some now } : LiveAlert).id
              (fun _ => { alert with acknowledgedAt := some now })) } :=
          wf_modifyNonterminal hwf { alert with acknowledgedAt := some now }
            ha hres rfl rfl hres rfl rfl le_rfl
        have ha1 : getAlert (modifyAlert s.alertsById alert.id
            (fun _ => ({ alert with acknowledgedAt := some now } : LiveAlert)))
            ({ alert with acknowledgedAt := some now } : LiveAlert).id =
            some { alert with acknowledgedAt := some now } := by
          show getAlert _ alert.id = _
          exact getAlert_modifyAlert_self ha (fun b hb => by simp [hb])
        have hwf2 := wf_transitionState hwf1 env now .BEING_REVIEWED
          (by decide) ha1 hres
        exact wf_transfer hwf2 rfl rfl (Nat.le_succ _)

theorem wf_caregiverAction {s : EngineState} (hwf : WellFormed s) (env : Env)
    (now alertId : Nat) (cid : String) (action : CgAction)
    (note : Option String) :
    WellFormed (caregiverAction env now alertId cid action note s).2 := by
  unfold caregiverAction
  dsimp only
  split
  · exact hwf
  · next alert heq =>
    split
    · exact hwf
    · split
      · exact hwf
      · next hres =>
        have hid : alert.id = alertId := getAlert_some_id heq
        have ha : getAlert s.alertsById alert.id = some alert := by
          rw [hid]; exact heq
        split
        · have hwfr : WellFormed (recordAudit env now alert cid "Caregiver"
              action.toName note s) :=
            wf_transfer hwf rfl rfl (Nat.le_succ _)
          exact wf_resolveAlertInternal hwfr ha hres env now _
        · have hwf2 := wf_transitionState hwf env now .BEING_REVIEWED
            (by decide) ha hres
          exact wf_transfer hwf2 rfl rfl (Nat.le_succ _)

theorem wf_tickEntry {s : EngineState} (hwf : WellFormed s) (env : Env)
    (now : Nat) (e : String × Nat) : WellFormed (tickEntry env now s e) := by
  unfold tickEntry
  dsimp only
  split
  · exact hwf
  · next alert heq =>
    have hid : alert.id = e.2 := getAlert_some_id heq
    have ha : getAlert s.alertsById alert.id = some alert := by
      rw [hid]; exact heq
    split
    · exact hwf
    · next hres =>
      split
      · exact hwf
      · split
        · exact hwf
        · split
          · exact wf_transitionState hwf env now .AWAITING_ACK (by decide)
              ha hres
          · have hwf1 : WellFormed { s with alertsById :=
                (modifyAlert s.alertsById
                  ({ alert with urgencyLevel :=
                      (min (alert.urgencyLevel + 1) 5) } : LiveAlert).id
                  (fun _ => { alert with urgencyLevel :=
                      (min (alert.urgencyLevel + 1) 5) })) } :=
              wf_modifyNonterminal hwf
                { alert with urgencyLevel := min (alert.urgencyLevel + 1) 5 }
                ha hres rfl rfl hres rfl rfl le_rfl
            have ha1 : getAlert (modifyAlert s.alertsById alert.id
                (fun _ => ({ alert with urgencyLevel :=
                    (min (alert.urgencyLevel + 1) 5) } : LiveAlert)))
                ({ alert with urgencyLevel :=
                    (min (alert.urgencyLevel + 1) 5) } : LiveAlert).id =
                some { alert with urgencyLevel :=
                    (min (alert.urgencyLevel + 1) 5) } := by
              show getAlert _ alert.id = _
              exact getAlert_modifyAlert_self ha (fun b hb => by simp [hb])
            exact wf_transitionState hwf1 env now .ESCALATED (by decide)
              ha1 hres
          · exact wf_transitionState hwf env now .AWAITING_ACK (by decide)
              ha hres
          · exact wf_resolveAlertInternal hwf ha hres env now _
          · exact hwf

theorem wf_foldTick (env : Env) (now : Nat) :
    ∀ (entries : List (String × Nat)) (s : EngineState), WellFormed s →
      WellFormed (entries.foldl (tickEntry env now) s) := by
  intro entries
  induction entries with
  | nil => exact fun s h => h
  | cons e rest ih =>
    intro s hwf
    exact ih (tickEntry env now s e) (wf_tickEntry hwf env now e)

theorem wf_advanceStateMachine {s : EngineState} (hwf : WellFormed s)
    (env : Env) (now : Nat) : WellFormed (advanceStateMachine env now s) :=
  wf_foldTick env now s.activeAlertIdByPatient s hwf

theorem wf_bulkAcknowledge {s : EngineState} (hwf : WellFormed s) (env : Env)
    (now : Nat) (cid : String) (tier? : Option Nat) :
    WellFormed (bulkAcknowledge env now cid tier? s).2 := by
  unfold bulkAcknowledge
  generalize (s.alertsById.map LiveAlert.id) = ids
  suffices h : ∀ (ids : List Nat) (acc : (Nat × List Nat) × EngineState),
      WellFormed acc.2 →
        WellFormed ((ids.foldl (bulkStep env now cid tier?) acc).2) by
    exact h ids ((0, []), s) hwf
  intro ids
  induction ids with
  | nil => exact fun acc h => h
  | cons i rest ih =>
    intro acc hacc
    refine ih _ ?_
    unfold bulkStep
    dsimp only
    split
    · exact hacc
    · split
      · exact hacc
      · split
        · exact hacc
        · split
          · exact hacc
          · split
            · exact wf_caregiverAction hacc env now i cid .acknowledge _
            · exact wf_caregiverAction hacc env now i cid .acknowledge _

theorem graceFold_core (now : Nat) :
    ∀ (pids : List String) (st : EngineState),
      (pids.foldl
        (fun st patientId =>
          { st with gracePeriodByPatient :=
              (aset patientId
                (max ((alookup patientId st.gracePeriodByPatient).getD 0)
                  (now + 20000))
                st.gracePeriodByPatient) })
        st).alertsById = st.alertsById ∧
      (pids.foldl
        (fun st patientId =>
          { st with gracePeriodByPatient :=
              (aset patientId
                (max ((alookup patientId st.gracePeriodByPatient).getD 0)
                  (now + 20000))
                st.gracePeriodByPatient) })
        st).activeAlertIdByPatient = st.activeAlertIdByPatient ∧
      (pids.foldl
        (fun st patientId =>
          { st with gracePeriodByPatient :=
              (aset patientId
                (max ((alookup patientId st.gracePeriodByPatient).getD 0)
                  (now + 20000))
                st.gracePeriodByPatient) })
        st).nextUuid = st.nextUuid := by
  intro pids
  induction pids with
  | nil => exact fun st => ⟨rfl, rfl, rfl⟩
  | cons p ps ih =>
    intro st
    rw [List.foldl_cons]
    exact ih _

theorem wf_addSubscriber {s : EngineState} (hwf : WellFormed s) (env : Env)
    (now : Nat) (auth : AuthTokenPayload) :
    WellFormed (addSubscriber env now auth s).2 := by
  unfold addSubscriber
  dsimp only
  cases auth.role with
  | Patient => exact wf_transfer hwf rfl rfl (Nat.le_succ _)
  | Caregiver =>
    dsimp only
    refine wf_transfer hwf ?_ ?_ ?_
    · rw [(graceFold_core now _ _).1]
    · rw [(graceFold_core now _ _).2.1]
    · rw [(graceFold_core now _ _).2.2]
      exact Nat.le_succ _

theorem wf_removeSubscriber {s : EngineState} (hwf : WellFormed s)
    (subscriberId : Nat) : WellFormed (removeSubscriber subscriberId s) :=
  wf_transfer hwf rfl rfl le_rfl

theorem wf_processVitals {s : EngineState} (hwf : WellFormed s) (env : Env)
    (now : Nat) (r3 : List StreamingVitals) (v : StreamingVitals) :
    WellFormed (processVitals env now r3 v s) := by
  unfold processVitals
  dsimp only
  have hwf1 : WellFormed { s with sampleCountByPatient :=
      (aset v.patientId ((alookup v.patientId s.sampleCountByPatient).getD 0
        + 1) s.sampleCountByPatient) } :=
    wf_transfer hwf rfl rfl le_rfl
  split
  · exact hwf1
  · split
    · exact hwf1
    · split
      · exact hwf1
      · split
        · exact hwf1
        · split
          · rename_i existingAlert heq
            split
            · rename_i hne
              split
              · obtain ⟨i, hl, hg⟩ := Option.bind_eq_some.mp heq
                obtain ⟨b, hgb, hbid, hbp, hbst⟩ := wf_active_getAlert hwf hl
                have hbe : b = existingAlert := by
                  rw [hg] at hgb
                  exact (Option.some.inj hgb).symm
                subst hbe
                have hget : getAlert s.alertsById b.id = some b := by
                  rw [hbid]
                  exact hg
                have hwfr := wf_resolveAlertInternal hwf1 hget hne env now
                  "Superseded by higher-tier alert"
                refine wf_openAlert hwfr env now v _ _ ?_
                rw [resolveAlertInternal_active]
                have hcond : alookup b.patientId s.activeAlertIdByPatient =
                    some b.id := by
                  rw [hbp, hbid]
                  exact hl
                unfold dropActiveEntry
                rw [if_pos hcond, hbp]
                exact alookup_aerase_self
              · split
                · obtain ⟨i, hl, hg⟩ := Option.bind_eq_some.mp heq
                  have hget : getAlert s.alertsById existingAlert.id =
                      some existingAlert := by
                    rw [getAlert_some_id hg]
                    exact hg
                  exact wf_refreshAlert hwf1 env hget hne _
                · exact hwf1
            · rename_i hres2
              exfalso
              obtain ⟨i, hl, hg⟩ := Option.bind_eq_some.mp heq
              obtain ⟨b, hgb, hbid, hbp, hbst⟩ := wf_active_getAlert hwf hl
              rw [hg] at hgb
              cases hgb
              exact hres2 (by simpa using hbst)
          · rename_i heq
            refine wf_openAlert hwf1 env now v _ _ ?_
            cases hl : alookup v.patientId s.activeAlertIdByPatient with
            | none => rfl
            | some i =>
              exfalso
              obtain ⟨b, hgb, hbid, hbp, hbst⟩ := wf_active_getAlert hwf hl
              rw [show ((alookup v.patientId s.activeAlertIdByPatient).bind
                (getAlert s.alertsById)) = some b from by rw [hl]; exact hgb]
                at heq
              cases heq

theorem wf_step {env : Env} {s s' : EngineState} (hwf : WellFormed s)
    (h : Step env s s') : WellFormed s' := by
  cases h with
  | vitals now r3 v s => exact wf_processVitals hwf env now r3 v
  | tick now s => exact wf_advanceStateMachine hwf env now
  | ack now alertId actor reason s =>
    exact wf_acknowledgeAlert hwf env now alertId actor reason
  | cg now alertId cid action note s =>
    exact wf_caregiverAction hwf env now alertId cid action note
  | bulk now cid tier? s => exact wf_bulkAcknowledge hwf env now cid tier?
  | subscribe now auth s => exact wf_addSubscriber hwf env now auth
  | unsubscribe subscriberId s => exact wf_removeSubscriber hwf subscriberId

theorem wf_initialState : WellFormed initialState := by
  refine ⟨?_, ?_, ?_, ?_, ?_⟩ <;> simp [initialState]

theorem wf_reachable {env : Env} {s : EngineState} (h : Reachable env s) :
    WellFormed s := by
  induction h with
  | init => exact wf_initialState
  | step hr hstep ih => exact wf_step ih hstep

/-! ## Fresh creation only after the prior episode is terminal (C1) -/

theorem processVitals_creation {s : EngineState} (hwf : WellFormed s)
    (env : Env) (now : Nat) (r3 : List StreamingVitals) (v : StreamingVitals)
    {c : LiveAlert} (hc : c ∈ (processVitals env now r3 v s).alertsById)
    (hfresh : ∀ b ∈ s.alertsById, b.id ≠ c.id) :
    ∀ a ∈ s.alertsById, a.patientId = c.patientId →
      ∃ a', a' ∈ (processVitals env now r3 v s).alertsById ∧ a'.id = a.id ∧
        a'.state = LiveAlertState.RESOLVED := by
  obtain ⟨w1, w2, w3, w4, w5⟩ := hwf
  intro a ha hap
  generalize hP : processVitals env now r3 v s = post at hc ⊢
  unfold processVitals at hP
  dsimp only at hP
  split at hP
  · subst hP
    exact absurd rfl (hfresh c hc)
  · split at hP
    · subst hP
      exact absurd rfl (hfresh c hc)
    · split at hP
      · subst hP
        exact absurd rfl (hfresh c hc)
      · split at hP
        · subst hP
          exact absurd rfl (hfresh c hc)
        · split at hP
          · rename_i existingAlert heq
            split at hP
            · rename_i hne
              split at hP
              · -- supersession, then a fresh episode unless cooldown blocks
                obtain ⟨i, hl, hg⟩ := Option.bind_eq_some.mp heq
                obtain ⟨b, hgb, hbid, hbp, hbst⟩ :=
                  wf_active_getAlert ⟨w1, w2, w3, w4, w5⟩ hl
                have hbe : b = existingAlert := by
                  rw [hg] at hgb
                  exact (Option.some.inj hgb).symm
                subst hbe
                have hbmem : b ∈ s.alertsById := getAlert_some_mem hg
                unfold openAlert at hP
                dsimp only at hP
                split at hP
                · subst hP
                  exfalso
                  rw [resolveAlertInternal_alertsById] at hc
                  rcases mem_modifyAlert_iff.mp hc with ⟨d, hd, hde⟩
                  by_cases hdc : d.id = b.id
                  · rw [if_pos hdc] at hde
                    exact hfresh d hd (by rw [hde]; exact hdc)
                  · rw [if_neg hdc] at hde
                    exact hfresh d hd (by rw [hde])
                · subst hP
                  rw [broadcast_alertsById, setCooldown_alertsById] at hc ⊢
                  dsimp only at hc ⊢
                  rw [resolveAlertInternal_alertsById] at hc ⊢
                  have hcc : c.patientId = v.patientId := by
                    rcases List.mem_append.mp hc with h | h
                    · exfalso
                      rcases mem_modifyAlert_iff.mp h with ⟨d, hd, hde⟩
                      by_cases hdc : d.id = b.id
                      · rw [if_pos hdc] at hde
                        exact hfresh d hd (by rw [hde]; exact hdc)
                      · rw [if_neg hdc] at hde
                        exact hfresh d hd (by rw [hde])
                    · rcases List.mem_singleton.mp h with rfl
                      rfl
                  by_cases hcase : a.id = b.id
                  · have hab : a = b := id_unique w1 ha hbmem hcase
                    refine ⟨{ b with state := .RESOLVED, updatedAt := now,
                                     resolvedAt := some now,
                                     stateDeadlineAt := none }, ?_, ?_, rfl⟩
                    · refine List.mem_append.mpr (Or.inl ?_)
                      exact mem_modifyAlert_iff.mpr ⟨b, hbmem, by simp⟩
                    · show b.id = a.id
                      rw [hab]
                  · have hares : a.state = LiveAlertState.RESOLVED := by
                      by_contra hanr
                      exact hcase (congrArg LiveAlert.id
                        (wf_unique ⟨w1, w2, w3, w4, w5⟩ ha hbmem
                          (hap.trans (hcc.trans hbp.symm)) hanr hbst))
                    refine ⟨a, ?_, rfl, hares⟩
                    refine List.mem_append.mpr (Or.inl ?_)
                    exact mem_modifyAlert_iff.mpr ⟨a, ha, by simp [hcase]⟩
              · split at hP
                · -- same-tier refresh: ids preserved, no fresh alert
                  subst hP
                  exfalso
                  unfold refreshAlert at hc
                  dsimp only at hc
                  split at hc
                  · rw [broadcast_alertsById] at hc
                    dsimp only at hc
                    rcases mem_modifyAlert_iff.mp hc with ⟨d, hd, hde⟩
                    by_cases hdc : d.id = existingAlert.id
                    · rw [if_pos hdc] at hde
                      exact hfresh d hd (by rw [hde]; exact hdc)
                    · rw [if_neg hdc] at hde
                      exact hfresh d hd (by rw [hde])
                  · exact absurd rfl (hfresh c hc)
                · subst hP
                  exact absurd rfl (hfresh c hc)
            · -- active entry pointing at a resolved alert: impossible
              rename_i hres2
              exfalso
              obtain ⟨i, hl, hg⟩ := Option.bind_eq_some.mp heq
              obtain ⟨b, hgb, hbid, hbp, hbst⟩ :=
                wf_active_getAlert ⟨w1, w2, w3, w4, w5⟩ hl
              rw [hg] at hgb
              cases hgb
              exact hres2 (by simpa using hbst)
          · -- no active entry: the subject has no non-terminal alert at all
            rename_i heq
            have hnone : alookup v.patientId s.activeAlertIdByPatient =
                none := by
              cases hl : alookup v.patientId s.activeAlertIdByPatient with
              | none => rfl
              | some i =>
                exfalso
                obtain ⟨b, hgb, hbid, hbp, hbst⟩ :=
                  wf_active_getAlert ⟨w1, w2, w3, w4, w5⟩ hl
                rw [show ((alookup v.patientId s.activeAlertIdByPatient).bind
                  (getAlert s.alertsById)) = some b from by
                    rw [hl]; exact hgb] at heq
                cases heq
            unfold openAlert at hP
            dsimp only at hP
            split at hP
            · subst hP
              exact absurd rfl (hfresh c hc)
            · subst hP
              rw [broadcast_alertsById, setCooldown_alertsById] at hc ⊢
              dsimp only at hc ⊢
              have hcc : c.patientId = v.patientId := by
                rcases List.mem_append.mp hc with h | h
                · exact absurd rfl (hfresh c h)
                · rcases List.mem_singleton.mp h with rfl
                  rfl
              have hares : a.state = LiveAlertState.RESOLVED := by
                by_contra hanr
                have := w5 a ha hanr
                rw [hap, hcc, hnone] at this
                cases this
              refine ⟨a, ?_, rfl, hares⟩
              exact List.mem_append.mpr (Or.inl ha)

/-- C1.  Along every reachable trace (any interleaving of `processVitals`,
ticker passes and action-API calls), each subject has at most one
non-terminal alert, the active-alert-by-subject map points to it whenever it
exists, and `processVitals` creates a brand-new alert for a subject only
when every previous alert of that subject ends the call RESOLVED (it was
terminal already, or superseded within the same call). -/
theorem claim_C1_single_active :
    ∀ (env : Env) (s : EngineState), Reachable env s →
      atMostOneActive s ∧ activeRegistryCoherent s ∧
      freshCreationResolvesPrior env s := by
  intro env s hreach
  have hwf := wf_reachable hreach
  refine ⟨?_, hwf.2.2.2.2, ?_⟩
  · intro a b ha hb hp hsa hsb
    exact wf_unique hwf ha hb hp hsa hsb
  · intro now r3 v c hc hfresh
    exact processVitals_creation hwf env now r3 v hc hfresh

/-- Witness for C1 at the initial (empty, trivially reachable) state. -/
theorem claim_C1_witness :
    atMostOneActive initialState ∧ activeRegistryCoherent initialState ∧
      freshCreationResolvesPrior envW initialState :=
  claim_C1_single_active envW initialState Reachable.init

/-! ## Bulk acknowledge (C8) -/

theorem bulkMatch_true_iff {env : Env} {cid : String} {t? : Option Nat}
    {a : LiveAlert} :
    bulkMatch env cid t? a = true ↔
      a.state ≠ .RESOLVED ∧ tierSkip t? a.tier = false ∧
        canAccessPatient env ⟨cid, .Caregiver, ""⟩ a.patientId = true := by
  simp [bulkMatch, and_assoc]

theorem caregiverAction_ack_proj {s : EngineState} {a : LiveAlert}
    (env : Env) (now : Nat) (cid : String) (note : Option String)
    (ha : getAlert s.alertsById a.id = some a)
    (hacc : canAccessPatient env ⟨cid, .Caregiver, ""⟩ a.patientId = true)
    (hst : a.state ≠ .RESOLVED) :
    (caregiverAction env now a.id cid .acknowledge note s).1 =
      .ok (applyTransition now .BEING_REVIEWED a) ∧
    (caregiverAction env now a.id cid .acknowledge note s).2.alertsById =
      modifyAlert s.alertsById a.id
        (fun _ => applyTransition now .BEING_REVIEWED a) := by
  constructor <;> simp [caregiverAction, ha, hacc, hst]

theorem bulk_fold_spec (env : Env) (now : Nat) (cid : String)
    (t? : Option Nat) :
    ∀ (todo : List LiveAlert) (acc : (Nat × List Nat) × EngineState),
      WellFormed acc.2 → (todo.map LiveAlert.id).Nodup →
      (∀ a ∈ todo, getAlert acc.2.alertsById a.id = some a) →
      ((todo.map LiveAlert.id).foldl (bulkStep env now cid t?) acc).1.1 =
          acc.1.1 + (todo.filter (bulkMatch env cid t?)).length ∧
      ((todo.map LiveAlert.id).foldl (bulkStep env now cid t?) acc).1.2 =
          acc.1.2 ++ (todo.filter (bulkMatch env cid t?)).map LiveAlert.id ∧
      (∀ a ∈ todo, bulkMatch env cid t? a = false →
        getAlert ((todo.map LiveAlert.id).foldl (bulkStep env now cid t?)
          acc).2.alertsById a.id = some a) ∧
      (∀ a ∈ todo, bulkMatch env cid t? a = true →
        getAlert ((todo.map LiveAlert.id).foldl (bulkStep env now cid t?)
          acc).2.alertsById a.id =
          some (applyTransition now .BEING_REVIEWED a)) ∧
      (∀ j : Nat, (∀ a ∈ todo, a.id ≠ j) →
        getAlert ((todo.map LiveAlert.id).foldl (bulkStep env now cid t?)
          acc).2.alertsById j = getAlert acc.2.alertsById j) := by
  intro todo
  induction todo with
  | nil =>
    intro acc _ _ _
    refine ⟨by simp, by simp, by simp, by simp, fun j _ => rfl⟩
  | cons a rest ih =>
    intro acc hwf hnd hvals
    have ha : getAlert acc.2.alertsById a.id = some a :=
      hvals a (List.mem_cons_self a rest)
    simp only [List.map_cons, List.nodup_cons] at hnd
    have hrestne : ∀ b ∈ rest, b.id ≠ a.id := by
      intro b hb he
      exact hnd.1 (he ▸ List.mem_map.mpr ⟨b, hb, rfl⟩)
    by_cases hm : bulkMatch env cid t? a = true
    · obtain ⟨h1, h2, h3⟩ := bulkMatch_true_iff.mp hm
      have hproj := caregiverAction_ack_proj env now cid
        (some "Bulk acknowledge") ha h3 h1
      have hstep : bulkStep env now cid t? acc a.id =
          ((acc.1.1 + 1, acc.1.2 ++ [a.id]),
            (caregiverAction env now a.id cid .acknowledge
              (some "Bulk acknowledge") acc.2).2) := by
        simp [bulkStep, ha, h1, h2, h3, hproj.1]
      have hwf' : WellFormed (caregiverAction env now a.id cid .acknowledge
          (some "Bulk acknowledge") acc.2).2 :=
        wf_caregiverAction hwf env now a.id cid .acknowledge _
      have hvals' : ∀ b ∈ rest, getAlert (caregiverAction env now a.id cid
          .acknowledge (some "Bulk acknowledge") acc.2).2.alertsById b.id =
          some b := by
        intro b hb
        rw [hproj.2, getAlert_modifyAlert_ne (hrestne b hb)
          (fun d hd => by rw [applyTransition_id]; exact hd.symm)]
        exact hvals b (List.mem_cons_of_mem a hb)
      obtain ⟨ih1, ih2, ih3, ih4, ih5⟩ :=
        ih ((acc.1.1 + 1, acc.1.2 ++ [a.id]),
            (caregiverAction env now a.id cid .acknowledge
              (some "Bulk acknowledge") acc.2).2) hwf' hnd.2 hvals'
      have hself : getAlert (caregiverAction env now a.id cid .acknowledge
          (some "Bulk acknowledge") acc.2).2.alertsById a.id =
          some (applyTransition now .BEING_REVIEWED a) := by
        rw [hproj.2]
        exact getAlert_modifyAlert_self ha
          (fun d hd => by rw [applyTransition_id]; exact hd.symm)
      refine ⟨?_, ?_, ?_, ?_, ?_⟩
      · rw [List.map_cons, List.foldl_cons, hstep, ih1]
        simp only [List.filter_cons, hm, if_pos, List.length_cons]
        omega
      · rw [List.map_cons, List.foldl_cons, hstep, ih2]
        simp [List.filter_cons, hm, List.append_assoc]
      · intro b hb hbm
        rcases List.mem_cons.mp hb with rfl | hb
        · rw [hm] at hbm
          cases hbm
        · rw [List.map_cons, List.foldl_cons, hstep]
          exact ih3 b hb hbm
      · intro b hb hbm
        rcases List.mem_cons.mp hb with rfl | hb
        · rw [List.map_cons, List.foldl_cons, hstep,
            ih5 b.id (fun d hd => hrestne d hd)]
          exact hself
        · rw [List.map_cons, List.foldl_cons, hstep]
          exact ih4 b hb hbm
      · intro j hj
        rw [List.map_cons, List.foldl_cons, hstep,
          ih5 j (fun d hd => hj d (List.mem_cons_of_mem a hd)), hproj.2,
          getAlert_modifyAlert_ne (Ne.symm (hj a (List.mem_cons_self a rest)))
            (fun d hd => by rw [applyTransition_id]; exact hd.symm)]
    · have hstep : bulkStep env now cid t? acc a.id = acc := by
        unfold bulkStep
        rw [ha]
        by_cases hs : a.state = .RESOLVED
        · simp [hs]
        · by_cases ht : tierSkip t? a.tier
          · simp [hs, ht]
          · have hc : canAccessPatient env ⟨cid, .Caregiver, ""⟩
                a.patientId = false := by
              by_contra hcn
              exact hm (bulkMatch_true_iff.mpr ⟨hs, by simpa using ht,
                by simpa using hcn⟩)
            simp [hs, ht, hc]
      obtain ⟨ih1, ih2, ih3, ih4, ih5⟩ := ih acc hwf hnd.2
        (fun b hb => hvals b (List.mem_cons_of_mem a hb))
      have hmf : bulkMatch env cid t? a = false := by
        cases hmb : bulkMatch env cid t? a
        · rfl
        · exact absurd hmb hm
      refine ⟨?_, ?_, ?_, ?_, ?_⟩
      · rw [List.map_cons, List.foldl_cons, hstep, ih1]
        simp [List.filter_cons, hmf]
      · rw [List.map_cons, List.foldl_cons, hstep, ih2]
        simp [List.filter_cons, hmf]
      · intro b hb hbm
        rcases List.mem_cons.mp hb with rfl | hb
        · rw [List.map_cons, List.foldl_cons, hstep,
            ih5 b.id (fun d hd => hrestne d hd)]
          exact ha
        · rw [List.map_cons, List.foldl_cons, hstep]
          exact ih3 b hb hbm
      · intro b hb hbm
        rcases List.mem_cons.mp hb with rfl | hb
        · rw [hmf] at hbm
          cases hbm
        · rw [List.map_cons, List.foldl_cons, hstep]
          exact ih4 b hb hbm
      · intro j hj
        rw [List.map_cons, List.foldl_cons, hstep]
        exact ih5 j (fun d hd => hj d (List.mem_cons_of_mem a hd))

theorem wf_s8 : WellFormed s8 := by
  refine ⟨by decide, by decide, by decide, ?_, by decide⟩
  intro p i h
  simp only [s8, List.mem_cons, List.not_mem_nil, or_false,
    Prod.mk.injEq] at h
  rcases h with ⟨rfl, rfl⟩ | ⟨rfl, rfl⟩ | ⟨rfl, rfl⟩
  · exact ⟨aT1, by decide, by decide, by decide, by decide⟩
  · exact ⟨aT2, by decide, by decide, by decide, by decide⟩
  · exact ⟨aT3, by decide, by decide, by decide, by decide⟩

/-- C8.  `bulkAcknowledge` acknowledges exactly the non-terminal alerts that
pass the optional tier filter and are visible to the caregiver: it returns
their ids (in registry order) and their count, moves each of them to
`BEING_REVIEWED` with a re-armed review deadline, and leaves every other
alert (terminal, out of scope, or of a different tier) unchanged. -/
theorem claim_C8_bulk_acknowledge :
    ∀ (env : Env) (now : Nat) (cid : String) (t? : Option Nat)
      (s : EngineState), WellFormed s →
      (bulkAcknowledge env now cid t? s).1.1 =
        (s.alertsById.filter (bulkMatch env cid t?)).length ∧
      (bulkAcknowledge env now cid t? s).1.2 =
        (s.alertsById.filter (bulkMatch env cid t?)).map LiveAlert.id ∧
      (∀ a ∈ s.alertsById, bulkMatch env cid t? a = false →
        getAlert (bulkAcknowledge env now cid t? s).2.alertsById a.id =
          some a) ∧
      (∀ a ∈ s.alertsById, bulkMatch env cid t? a = true →
        getAlert (bulkAcknowledge env now cid t? s).2.alertsById a.id =
          some (applyTransition now .BEING_REVIEWED a)) ∧
      (∀ a : LiveAlert, applyTransition now .BEING_REVIEWED a =
        { a with state := .BEING_REVIEWED, updatedAt := now,
                 stateDeadlineAt := some (now + REVIEW_TO_RESOLVED_MS) }) := by
  intro env now cid t? s hwf
  obtain ⟨h1, h2, h3, h4, _⟩ := bulk_fold_spec env now cid t? s.alertsById
    ((0, []), s) hwf hwf.1 (fun a ha => mem_getAlert ha hwf.1)
  exact ⟨by simpa using h1, by simpa using h2, h3, h4, fun a => rfl⟩

/-- Witness for C8: the three-alert scenario (tiers 1, 2, 2) with the tier-2
filter acknowledges exactly the two tier-2 alerts, returns their ids, and
leaves the tier-1 alert untouched. -/
theorem claim_C8_witness :
    WellFormed s8 ∧
    (s8.alertsById.filter (bulkMatch env8 "cg1" (some 2))).map LiveAlert.id =
      [1, 2] ∧
    (bulkAcknowledge env8 5 "cg1" (some 2) s8).1.2 = [1, 2] ∧
    (bulkAcknowledge env8 5 "cg1" (some 2) s8).1.1 = 2 ∧
    getAlert (bulkAcknowledge env8 5 "cg1" (some 2) s8).2.alertsById 0 =
      some aT1 := by
  have h := claim_C8_bulk_acknowledge env8 5 "cg1" (some 2) s8 wf_s8
  refine ⟨wf_s8, by decide, ?_, ?_, ?_⟩
  · rw [h.2.1]
    decide
  · rw [h.1]
    decide
  · exact h.2.2.1 aT1 (by decide) (by decide)

/-! ## The ticker pass (C2) -/

theorem tickEntry_not_due (env : Env) (now : Nat) (t : EngineState)
    (e : String × Nat) (a : LiveAlert)
    (ha : getAlert t.alertsById e.2 = some a)
    (hd : tickDue now a = false) : tickEntry env now t e = t := by
  unfold tickEntry
  rw [ha]
  dsimp only
  split
  · rfl
  · unfold tickDue at hd
    split at hd
    · rfl
    · next d hdl =>
      have hlt : now < d := by simpa using hd
      rw [if_pos hlt]

theorem tickEntry_getAlert_ne (env : Env) (now : Nat) (t : EngineState)
    (e : String × Nat) (j : Nat) (hj : j ≠ e.2) :
    getAlert (tickEntry env now t e).alertsById j =
      getAlert t.alertsById j := by
  unfold tickEntry
  dsimp only
  split
  · rfl
  · next alert heq =>
    have hid : alert.id = e.2 := getAlert_some_id heq
    have hne : j ≠ alert.id := by rw [hid]; exact hj
    split
    · rfl
    · split
      · rfl
      · split
        · rfl
        · split
          · rw [transitionState_alertsById]
            exact getAlert_modifyAlert_ne hne
              (fun b hb => by rw [applyTransition_id]; exact hb.symm)
          · rw [transitionState_alertsById,
              getAlert_modifyAlert_ne hne
                (fun b hb => by rw [applyTransition_id]; exact hb.symm)]
            dsimp only
            exact getAlert_modifyAlert_ne hne (fun b hb => hb.symm)
          · rw [transitionState_alertsById]
            exact getAlert_modifyAlert_ne hne
              (fun b hb => by rw [applyTransition_id]; exact hb.symm)
          · rw [resolveAlertInternal_alertsById]
            exact getAlert_modifyAlert_ne hne (fun b hb => hb.symm)
          · rfl

theorem modifyAlert_patientId_map {l : List LiveAlert} {i : Nat}
    {f : LiveAlert → LiveAlert} {a : LiveAlert}
    (h : getAlert l i = some a)
    (hf : ∀ b : LiveAlert, b.id = i → (f b).id = b.id)
    (hp : (f a).patientId = a.patientId) (j : Nat) :
    Option.map LiveAlert.patientId (getAlert (modifyAlert l i f) j) =
      Option.map LiveAlert.patientId (getAlert l j) := by
  by_cases hij : j = i
  · subst hij
    rw [getAlert_modifyAlert_self h hf, h, Option.map_some',
      Option.map_some', hp]
  · rw [getAlert_modifyAlert_ne hij hf]

theorem tickEntry_patientId (env : Env) (now : Nat) (t : EngineState)
    (e : String × Nat) (j : Nat) :
    Option.map LiveAlert.patientId
        (getAlert (tickEntry env now t e).alertsById j) =
      Option.map LiveAlert.patientId (getAlert t.alertsById j) := by
  unfold tickEntry
  dsimp only
  split
  · rfl
  · next alert heq =>
    have hid : alert.id = e.2 := getAlert_some_id heq
    have haj : getAlert t.alertsById alert.id = some alert := by
      rw [hid]; exact heq
    split
    · rfl
    · split
      · rfl
      · split
        · rfl
        · split
          · rw [transitionState_alertsById]
            exact modifyAlert_patientId_map haj
              (fun b hb => by rw [applyTransition_id]; exact hb.symm)
              (by rw [applyTransition_patientId]) j
          · rw [transitionState_alertsById]
            dsimp only
            have hmid : getAlert (modifyAlert t.alertsById alert.id
                (fun _ => ({ alert with urgencyLevel :=
                  (min (alert.urgencyLevel + 1) 5) } : LiveAlert)))
                alert.id =
                some { alert with urgencyLevel :=
                  (min (alert.urgencyLevel + 1) 5) } :=
              getAlert_modifyAlert_self haj (fun b hb => hb.symm)
            refine (modifyAlert_patientId_map hmid
              (fun b hb => by rw [applyTransition_id]; exact hb.symm)
              (by rw [applyTransition_patientId]) j).trans
              (modifyAlert_patientId_map haj
                (fun b hb => by exact hb.symm) (by rfl) j)
          · rw [transitionState_alertsById]
            exact modifyAlert_patientId_map haj
              (fun b hb => by rw [applyTransition_id]; exact hb.symm)
              (by rw [applyTransition_patientId]) j
          · rw [resolveAlertInternal_alertsById]
            exact modifyAlert_patientId_map haj
              (fun b hb => by exact hb.symm) (by rfl) j
          · rfl

theorem tickEntry_active_cases (env : Env) (now : Nat) (t : EngineState)
    (e : String × Nat) :
    (tickEntry env now t e).activeAlertIdByPatient =
        t.activeAlertIdByPatient ∨
      ∃ a, getAlert t.alertsById e.2 = some a ∧
        (tickEntry env now t e).activeAlertIdByPatient =
          dropActiveEntry a.patientId a.id t.activeAlertIdByPatient := by
  unfold tickEntry
  dsimp only
  split
  · exact Or.inl rfl
  · next alert heq =>
    split
    · exact Or.inl rfl
    · split
      · exact Or.inl rfl
      · split
        · exact Or.inl rfl
        · split
          · exact Or.inl rfl
          · exact Or.inl rfl
          · exact Or.inl rfl
          · exact Or.inr ⟨alert, heq, rfl⟩
          · exact Or.inl rfl

theorem tickEntry_active_none (env : Env) (now : Nat) (t : EngineState)
    (e : String × Nat) (p : String)
    (hp : alookup p t.activeAlertIdByPatient = none) :
    alookup p (tickEntry env now t e).activeAlertIdByPatient = none := by
  rcases tickEntry_active_cases env now t e with h | ⟨a, _, h⟩
  · rw [h]; exact hp
  · rw [h]
    unfold dropActiveEntry
    split
    · by_cases hq : p = a.patientId
      · subst hq
        exact alookup_aerase_self
      · rw [alookup_aerase_ne hq]
        exact hp
    · exact hp

theorem tickEntry_active_keep (env : Env) (now : Nat) (t : EngineState)
    (e : String × Nat) (p : String)
    (hq : ∀ a, getAlert t.alertsById e.2 = some a → a.patientId ≠ p) :
    alookup p (tickEntry env now t e).activeAlertIdByPatient =
      alookup p t.activeAlertIdByPatient := by
  rcases tickEntry_active_cases env now t e with h | ⟨a, ha, h⟩
  · rw [h]
  · rw [h]
    unfold dropActiveEntry
    split
    · exact alookup_aerase_ne (fun he => hq a ha he.symm)
    · rfl

theorem tick_fold_frame (env : Env) (now : Nat) (j : Nat) :
    ∀ (l : List (String × Nat)) (t : EngineState),
      (∀ e ∈ l, e.2 ≠ j) →
      getAlert (l.foldl (tickEntry env now) t).alertsById j =
        getAlert t.alertsById j := by
  intro l
  induction l with
  | nil => exact fun t _ => rfl
  | cons e rest ih =>
    intro t hl
    rw [List.foldl_cons,
      ih (tickEntry env now t e)
        (fun e' he' => hl e' (List.mem_cons_of_mem e he')),
      tickEntry_getAlert_ne env now t e j
        (Ne.symm (hl e (List.mem_cons_self e rest)))]

theorem tick_fold_none (env : Env) (now : Nat) (p : String) :
    ∀ (l : List (String × Nat)) (t : EngineState),
      alookup p t.activeAlertIdByPatient = none →
      alookup p (l.foldl (tickEntry env now) t).activeAlertIdByPatient =
        none := by
  intro l
  induction l with
  | nil => exact fun t h => h
  | cons e rest ih =>
    intro t h
    rw [List.foldl_cons]
    exact ih _ (tickEntry_active_none env now t e p h)

theorem tick_fold_keep (env : Env) (now : Nat) (p : String) (i : Nat) :
    ∀ (l1 : List (String × Nat)) (t : EngineState),
      (∀ e ∈ l1, e.2 ≠ i) →
      (∀ e ∈ l1, e.1 ≠ p) →
      (∀ e ∈ l1, Option.map LiveAlert.patientId
          (getAlert t.alertsById e.2) = some e.1) →
      getAlert (l1.foldl (tickEntry env now) t).alertsById i =
          getAlert t.alertsById i ∧
      alookup p (l1.foldl (tickEntry env now) t).activeAlertIdByPatient =
        alookup p t.activeAlertIdByPatient := by
  intro l1
  induction l1 with
  | nil => exact fun t _ _ _ => ⟨rfl, rfl⟩
  | cons e rest ih =>
    intro t h1 h2 h3
    have hstep1 : getAlert (tickEntry env now t e).alertsById i =
        getAlert t.alertsById i :=
      tickEntry_getAlert_ne env now t e i
        (Ne.symm (h1 e (List.mem_cons_self e rest)))
    have hstep2 : alookup p (tickEntry env now t e).activeAlertIdByPatient =
        alookup p t.activeAlertIdByPatient := by
      refine tickEntry_active_keep env now t e p ?_
      intro a ha
      have h4 := h3 e (List.mem_cons_self e rest)
      rw [ha, Option.map_some'] at h4
      rw [Option.some.inj h4]
      exact h2 e (List.mem_cons_self e rest)
    obtain ⟨ihm1, ihm2⟩ := ih (tickEntry env now t e)
      (fun e' he' => h1 e' (List.mem_cons_of_mem e he'))
      (fun e' he' => h2 e' (List.mem_cons_of_mem e he'))
      (fun e' he' => by
        rw [tickEntry_patientId env now t e]
        exact h3 e' (List.mem_cons_of_mem e he'))
    exact ⟨by rw [List.foldl_cons, ihm1, hstep1],
      by rw [List.foldl_cons, ihm2, hstep2]⟩

theorem tickAdvanced_state (now : Nat) (a : LiveAlert) :
    (tickAdvanced now a).state = nextTickState a.state := by
  unfold tickAdvanced nextTickState
  cases h : a.state <;> simp [h, applyTransition_state]

theorem tickAdvanced_urgency (now : Nat) (a : LiveAlert)
    (h : a.state = .AWAITING_ACK) :
    (tickAdvanced now a).urgencyLevel = min (a.urgencyLevel + 1) 5 := by
  unfold tickAdvanced
  rw [h]
  rfl

theorem tickAdvanced_review (now : Nat) (a : LiveAlert)
    (h : a.state = .BEING_REVIEWED) :
    (tickAdvanced now a).stateDeadlineAt = none ∧
    (tickAdvanced now a).resolvedAt = some now := by
  unfold tickAdvanced
  rw [h]
  exact ⟨rfl, rfl⟩

theorem tickEntry_spec (env : Env) (now : Nat) (t : EngineState)
    (e : String × Nat) (a : LiveAlert)
    (ha : getAlert t.alertsById e.2 = some a)
    (hns : a.state ≠ .RESOLVED) (hdue : tickDue now a = true) :
    getAlert (tickEntry env now t e).alertsById e.2 =
      some (tickAdvanced now a) ∧
    (a.state ≠ .BEING_REVIEWED →
      (tickEntry env now t e).activeAlertIdByPatient =
        t.activeAlertIdByPatient) ∧
    (a.state = .BEING_REVIEWED →
      (tickEntry env now t e).activeAlertIdByPatient =
        dropActiveEntry a.patientId a.id t.activeAlertIdByPatient ∧
      (tickEntry env now t e).auditTrail =
        (auditEntryFor now (tickAdvanced now a) "system" "System"
            "acknowledge" (some "Resolved after review") t.nextUuid ::
          t.auditTrail).take 500) := by
  obtain ⟨d, hdl, hle⟩ : ∃ d, a.stateDeadlineAt = some d ∧ d ≤ now := by
    unfold tickDue at hdue
    split at hdue
    · cases hdue
    · next d hd => exact ⟨d, hd, of_decide_eq_true hdue⟩
  have hid : a.id = e.2 := getAlert_some_id ha
  have haid : getAlert t.alertsById a.id = some a := by
    rw [hid]; exact ha
  unfold tickEntry
  rw [ha]
  dsimp only
  rw [if_neg hns]
  split
  · next hdl0 =>
    rw [hdl0] at hdl
    cases hdl
  · next d2 hdl2 =>
    have hd2 : d2 = d := by
      rw [hdl2] at hdl
      exact Option.some.inj hdl
    subst hd2
    rw [if_neg (Nat.not_lt.mpr hle)]
    split
    · next hstate =>
      have htick : tickAdvanced now a =
          applyTransition now .AWAITING_ACK a := by
        unfold tickAdvanced
        rw [hstate]
      refine ⟨?_, fun _ => rfl, fun hbr => absurd hbr (by rw [hstate]; decide)⟩
      rw [transitionState_alertsById, htick, ← hid]
      exact getAlert_modifyAlert_self haid
        (fun b hb => by rw [applyTransition_id]; exact hb.symm)
    · next hstate =>
      refine ⟨?_, fun _ => rfl, fun hbr => absurd hbr (by rw [hstate]; decide)⟩
      rw [transitionState_alertsById]
      dsimp only
      rw [← hid]
      have hmid : getAlert (modifyAlert t.alertsById a.id
          (fun _ => ({ a with urgencyLevel :=
            (min (a.urgencyLevel + 1) 5) } : LiveAlert))) a.id =
          some { a with urgencyLevel := (min (a.urgencyLevel + 1) 5) } :=
        getAlert_modifyAlert_self haid (fun b hb => hb.symm)
      rw [getAlert_modifyAlert_self hmid
          (fun b hb => by rw [applyTransition_id]; exact hb.symm)]
      unfold tickAdvanced
      rw [hstate]
    · next hstate =>
      have htick : tickAdvanced now a =
          applyTransition now .AWAITING_ACK a := by
        unfold tickAdvanced
        rw [hstate]
      refine ⟨?_, fun _ => rfl, fun hbr => absurd hbr (by rw [hstate]; decide)⟩
      rw [transitionState_alertsById, htick, ← hid]
      exact getAlert_modifyAlert_self haid
        (fun b hb => by rw [applyTransition_id]; exact hb.symm)
    · next hstate =>
      have htick : tickAdvanced now a =
          { a with state := .RESOLVED, updatedAt := now,
                   resolvedAt := some now, stateDeadlineAt := none } := by
        unfold tickAdvanced
        rw [hstate]
      refine ⟨?_, fun hne => absurd hstate hne, fun _ => ⟨rfl, ?_⟩⟩
      · rw [resolveAlertInternal_alertsById, htick, ← hid]
        exact getAlert_modifyAlert_self haid (fun b hb => hb.symm)
      · rw [htick]
        exact resolveAlertInternal_auditTrail
    · next hstate =>
      exact absurd hstate hns

theorem wf_sBR : WellFormed sBR := by
  refine ⟨by decide, by decide, by decide, ?_, by decide⟩
  intro p i h
  simp only [sBR, List.mem_cons, List.not_mem_nil, or_false,
    Prod.mk.injEq] at h
  obtain ⟨rfl, rfl⟩ := h
  exact ⟨aBR, by decide, by decide, by decide, by decide⟩

/-- C2.  On a ticker pass (`advanceStateMachine`), a registered active alert
whose deadline has not passed is unchanged; one whose deadline has passed
undergoes exactly the transition `tickAdvanced`, whose state moves as
`nextTickState` (FIRED→AWAITING_ACK, AWAITING_ACK→ESCALATED with the urgency
level incremented and capped at 5, ESCALATED→AWAITING_ACK,
BEING_REVIEWED→RESOLVED with the deadline cleared, `resolvedAt` stamped and
the subject removed from the active registry, never skipping a state or
moving backward except via the AWAITING_ACK⇄ESCALATED cycle); alerts not in
the registry are untouched, and the BEING_REVIEWED→RESOLVED step writes the
system audit entry. -/
theorem claim_C2_ticker :
    ∀ (env : Env) (now : Nat) (s : EngineState), WellFormed s →
      (∀ p i, (p, i) ∈ s.activeAlertIdByPatient →
        ∀ a, getAlert s.alertsById i = some a →
          (tickDue now a = false →
            getAlert (advanceStateMachine env now s).alertsById i = some a) ∧
          (tickDue now a = true →
            getAlert (advanceStateMachine env now s).alertsById i =
              some (tickAdvanced now a) ∧
            (tickAdvanced now a).state = nextTickState a.state ∧
            (a.state = .AWAITING_ACK →
              (tickAdvanced now a).urgencyLevel =
                min (a.urgencyLevel + 1) 5) ∧
            (a.state = .BEING_REVIEWED →
              (tickAdvanced now a).stateDeadlineAt = none ∧
              (tickAdvanced now a).resolvedAt = some now ∧
              alookup p
                  (advanceStateMachine env now s).activeAlertIdByPatient =
                none))) ∧
      (∀ j : Nat, (∀ q : String, (q, j) ∉ s.activeAlertIdByPatient) →
        getAlert (advanceStateMachine env now s).alertsById j =
          getAlert s.alertsById j) ∧
      (∀ (e : String × Nat) (a : LiveAlert),
        getAlert s.alertsById e.2 = some a → a.state = .BEING_REVIEWED →
        tickDue now a = true →
        (tickEntry env now s e).auditTrail =
          (auditEntryFor now (tickAdvanced now a) "system" "System"
              "acknowledge" (some "Resolved after review") s.nextUuid ::
            s.auditTrail).take 500) := by
  intro env now s hwf
  obtain ⟨hnd, hlt, hkey, hsound, hcomp⟩ := hwf
  refine ⟨?_, ?_, ?_⟩
  · intro p i hpi a hga
    obtain ⟨b, hbmem, hbid, hbp, hbst⟩ := hsound p i hpi
    have hgb : getAlert s.alertsById i = some b := by
      rw [← hbid]
      exact mem_getAlert hbmem hnd
    have hab : a = b := by
      rw [hga] at hgb
      exact Option.some.inj hgb
    have hai : a.id = i := by rw [hab]; exact hbid
    have hap : a.patientId = p := by rw [hab]; exact hbp
    have hast : a.state ≠ .RESOLVED := by rw [hab]; exact hbst
    obtain ⟨l1, l2, hsplit⟩ := List.append_of_mem hpi
    have hkey' := hkey
    rw [hsplit, List.map_append, List.map_cons, List.nodup_append] at hkey'
    have hp1 : ∀ e ∈ l1, e.1 ≠ p := by
      intro e he hep
      exact hkey'.2.2 (List.mem_map.mpr ⟨e, he, rfl⟩)
        (by rw [hep]; exact List.mem_cons_self _ _)
    have hp2 : ∀ e ∈ l2, e.1 ≠ p := by
      intro e he hep
      exact (List.nodup_cons.mp hkey'.2.1).1
        (hep ▸ List.mem_map.mpr ⟨e, he, rfl⟩)
    have hval : ∀ e, e ∈ s.activeAlertIdByPatient → e.1 ≠ p → e.2 ≠ i := by
      intro e hemem hne1 he2
      obtain ⟨c, hcmem, hcid, hcp, _⟩ := hsound e.1 e.2 hemem
      rw [he2] at hcid
      have hcb : c = b := id_unique hnd hcmem hbmem (by rw [hcid, hbid])
      exact hne1 (by rw [← hcp, hcb, hbp])
    have hpm : ∀ e, e ∈ s.activeAlertIdByPatient →
        Option.map LiveAlert.patientId (getAlert s.alertsById e.2) =
          some e.1 := by
      intro e hemem
      obtain ⟨c, hcmem, hcid, hcp, _⟩ := hsound e.1 e.2 hemem
      rw [← hcid, mem_getAlert hcmem hnd, Option.map_some', hcp]
    have hmem1 : ∀ e ∈ l1, e ∈ s.activeAlertIdByPatient := by
      intro e he
      rw [hsplit]
      exact List.mem_append_left _ he
    have hmem2 : ∀ e ∈ l2, e ∈ s.activeAlertIdByPatient := by
      intro e he
      rw [hsplit]
      exact List.mem_append_right _ (List.mem_cons_of_mem _ he)
    have hfold : advanceStateMachine env now s =
        l2.foldl (tickEntry env now)
          (tickEntry env now (l1.foldl (tickEntry env now) s) (p, i)) := by
      unfold advanceStateMachine
      rw [hsplit, List.foldl_append, List.foldl_cons]
    obtain ⟨hA1, hA2⟩ := tick_fold_keep env now p i l1 s
      (fun e he => hval e (hmem1 e he) (hp1 e he))
      hp1 (fun e he => hpm e (hmem1 e he))
    have ha_t1 : getAlert (l1.foldl (tickEntry env now) s).alertsById i =
        some a := by
      rw [hA1]
      exact hga
    have hl2ne : ∀ e ∈ l2, e.2 ≠ i :=
      fun e he => hval e (hmem2 e he) (hp2 e he)
    constructor
    · intro hdue
      rw [hfold,
        tick_fold_frame env now i l2 _ hl2ne,
        tickEntry_not_due env now _ (p, i) a ha_t1 hdue]
      exact ha_t1
    · intro hdue
      obtain ⟨hu1, hu2, hu3⟩ :=
        tickEntry_spec env now (l1.foldl (tickEntry env now) s) (p, i) a
          ha_t1 hast hdue
      refine ⟨?_, tickAdvanced_state now a, tickAdvanced_urgency now a, ?_⟩
      · rw [hfold, tick_fold_frame env now i l2 _ hl2ne]
        exact hu1
      · intro hbr
        refine ⟨(tickAdvanced_review now a hbr).1,
          (tickAdvanced_review now a hbr).2, ?_⟩
        rw [hfold]
        refine tick_fold_none env now p l2 _ ?_
        rw [(hu3 hbr).1]
        unfold dropActiveEntry
        rw [hap, hai, hA2, mem_alookup hpi hkey, if_pos rfl]
        exact alookup_aerase_self
  · intro j hqj
    unfold advanceStateMachine
    refine tick_fold_frame env now j s.activeAlertIdByPatient s ?_
    intro e he hej
    exact hqj e.1 (by rw [← hej]; exact he)
  · intro e a hga hbr hdue
    have hns : a.state ≠ .RESOLVED := by rw [hbr]; decide
    exact ((tickEntry_spec env now s e a hga hns hdue).2.2 hbr).2

/-- Witness for C2: at time 2000 the overdue BEING_REVIEWED alert of `sBR`
is resolved by the ticker pass and its subject leaves the active
registry. -/
theorem claim_C2_witness :
    WellFormed sBR ∧ ("p1", 0) ∈ sBR.activeAlertIdByPatient ∧
    getAlert sBR.alertsById 0 = some aBR ∧ tickDue 2000 aBR = true ∧
    getAlert (advanceStateMachine envW 2000 sBR).alertsById 0 =
      some (tickAdvanced 2000 aBR) ∧
    alookup "p1"
      (advanceStateMachine envW 2000 sBR).activeAlertIdByPatient = none := by
  have h := ((claim_C2_ticker envW 2000 sBR wf_sBR).1 "p1" 0 (by decide)
    aBR (by decide)).2 (by decide)
  exact ⟨wf_sBR, by decide, by decide, by decide, h.1,
    (h.2.2.2 (by decide)).2.2⟩

end LiveAlertEngine
